import Mathlib

/-!
Verification development for the shellcaster repository: a shallow embedding of
the multi-platform publishing dispatcher, its per-platform credential handling,
the credential store, and the message composer, together with theorems settling
the specification claims against the embedded code.

Python strings are modelled as `List Char` (`PyStr`); Python `dict`-shaped
environments as association lists; network and interactive effects as oracle
fields of explicit world structures; exceptions as `Except` or explicit failure
constructors; and the recursive LinkedIn retry as a fuel-indexed function.
-/

set_option maxHeartbeats 1000000
set_option maxRecDepth 8000

/-! ## Python string primitives over `List Char` -/

/-- Python strings, modelled as lists of characters. -/
abbrev PyStr := List Char

/-- Coerce a Lean string literal to the `PyStr` model. -/
def str (s : String) : PyStr := s.data

/-- Characters stripped by Python `str.strip()` and friends (ASCII whitespace). -/
def pyIsSpace (c : Char) : Bool :=
  c == ' ' || c == '\t' || c == '\n' || c == '\r' || c == '\x0b' || c == '\x0c'

/-- Python `str.lstrip()` with no argument. -/
def pyLStrip (s : PyStr) : PyStr := s.dropWhile pyIsSpace

/-- Python `str.rstrip()` with no argument. -/
def pyRStrip (s : PyStr) : PyStr := (s.reverse.dropWhile pyIsSpace).reverse

/-- Python `str.strip()` with no argument. -/
def pyStrip (s : PyStr) : PyStr := pyRStrip (pyLStrip s)

/-- Python substring test `needle in hay`. -/
def pyContains (hay needle : PyStr) : Bool :=
  match hay with
  | [] => needle.isEmpty
  | c :: t => needle.isPrefixOf (c :: t) || pyContains t needle

/-- ASCII lower-casing of one character, as Python `str.lower()` does on ASCII. -/
def pyLowerChar (c : Char) : Char :=
  if c == 'A' then 'a' else if c == 'B' then 'b' else if c == 'C' then 'c'
  else if c == 'D' then 'd' else if c == 'E' then 'e' else if c == 'F' then 'f'
  else if c == 'G' then 'g' else if c == 'H' then 'h' else if c == 'I' then 'i'
  else if c == 'J' then 'j' else if c == 'K' then 'k' else if c == 'L' then 'l'
  else if c == 'M' then 'm' else if c == 'N' then 'n' else if c == 'O' then 'o'
  else if c == 'P' then 'p' else if c == 'Q' then 'q' else if c == 'R' then 'r'
  else if c == 'S' then 's' else if c == 'T' then 't' else if c == 'U' then 'u'
  else if c == 'V' then 'v' else if c == 'W' then 'w' else if c == 'X' then 'x'
  else if c == 'Y' then 'y' else if c == 'Z' then 'z' else c

/-- Python `str.lower()` (ASCII fragment, which is all the adapters compare). -/
def pyLower (s : PyStr) : PyStr := s.map pyLowerChar

/-- ASCII upper-casing of one character. -/
def pyUpperChar (c : Char) : Char :=
  if c == 'a' then 'A' else if c == 'b' then 'B' else if c == 'c' then 'C'
  else if c == 'd' then 'D' else if c == 'e' then 'E' else if c == 'f' then 'F'
  else if c == 'g' then 'G' else if c == 'h' then 'H' else if c == 'i' then 'I'
  else if c == 'j' then 'J' else if c == 'k' then 'K' else if c == 'l' then 'L'
  else if c == 'm' then 'M' else if c == 'n' then 'N' else if c == 'o' then 'O'
  else if c == 'p' then 'P' else if c == 'q' then 'Q' else if c == 'r' then 'R'
  else if c == 's' then 'S' else if c == 't' then 'T' else if c == 'u' then 'U'
  else if c == 'v' then 'V' else if c == 'w' then 'W' else if c == 'x' then 'X'
  else if c == 'y' then 'Y' else if c == 'z' then 'Z' else c

/-- Python `str.capitalize()`: first character upper-cased, the rest lower-cased. -/
def pyCapitalize (s : PyStr) : PyStr :=
  match s with
  | [] => []
  | c :: t => pyUpperChar c :: pyLower t

/-- Python `str.splitlines()` restricted to `'\n'` terminators: returns the list
of lines without terminators; a trailing newline does not create a final empty
line; the empty string yields no lines. -/
def splitLines : PyStr → List PyStr
  | [] => []
  | c :: cs =>
    if c == '\n' then [] :: splitLines cs
    else
      match splitLines cs with
      | [] => [[c]]
      | l :: ls => (c :: l) :: ls

/-- Python `'\n'.join(lines)`. -/
def joinNl : List PyStr → PyStr
  | [] => []
  | [l] => l
  | l :: l' :: ls => l ++ '\n' :: joinNl (l' :: ls)

/-- Python `' '.join(parts)`. -/
def joinSpace : List PyStr → PyStr
  | [] => []
  | [l] => l
  | l :: l' :: ls => l ++ ' ' :: joinSpace (l' :: ls)

/-- Python truthiness of an optional string: `None` and the empty string are
falsy, every other string is truthy. -/
def pyTruthy (v : Option PyStr) : Bool :=
  match v with
  | none => false
  | some s => !s.isEmpty

/-- Rendering of an optional string in an f-string, as `print(f"... {val}")`
does: `None` prints as the four letters `None`. -/
def pyShowOpt (v : Option PyStr) : PyStr :=
  match v with
  | none => str "None"
  | some s => s

/-- A raised Python exception, carried by its message. -/
abbrev PyErr := PyStr

/-! ## Environment maps (`os.environ`-style dictionaries) -/

/-- A process environment: an association list with at most one live binding per
key, read through `lookupEnv` and written through `updateEnv`. -/
abbrev EnvMap := List (PyStr × PyStr)

/-- Dictionary lookup: the first binding of the key, if any. -/
def lookupEnv : EnvMap → PyStr → Option PyStr
  | [], _ => none
  | (k, v) :: t, k' => if k == k' then some v else lookupEnv t k'

/-- Dictionary update: replace the first binding of the key, or append one. -/
def updateEnv : EnvMap → PyStr → PyStr → EnvMap
  | [], k, v => [(k, v)]
  | (k0, v0) :: t, k, v =>
    if k0 == k then (k, v) :: t else (k0, v0) :: updateEnv t k v

theorem lookupEnv_updateEnv_self (e : EnvMap) (k v : PyStr) :
    lookupEnv (updateEnv e k v) k = some v := by
  induction e with
  | nil => simp [updateEnv, lookupEnv]
  | cons h t ih =>
    obtain ⟨k0, v0⟩ := h
    by_cases hk : k0 = k
    · simp [updateEnv, lookupEnv, hk]
    · simp [updateEnv, lookupEnv, hk, ih]

theorem lookupEnv_updateEnv_other (e : EnvMap) (k k' v : PyStr) (h : k ≠ k') :
    lookupEnv (updateEnv e k v) k' = lookupEnv e k' := by
  induction e with
  | nil => simp [updateEnv, lookupEnv, h]
  | cons hd t ih =>
    obtain ⟨k0, v0⟩ := hd
    by_cases hk : k0 = k
    · subst hk
      simp [updateEnv, lookupEnv, h]
    · simp [updateEnv, lookupEnv, hk, ih]

/-! ## Credential store: `src/utils/env.py`

The persisted `.env` file is modelled as its raw character content; Python's
`read_text().splitlines()` and `'\n'.join(...) + '\n'` become `splitLines` and
`joinNl`; `load_dotenv(override=True)` of the external python-dotenv library is
modelled as parsing `key=value` lines top-down with later lines overriding, and
its `set_key(..., quote_mode='never')` as the same replace-first-or-append
rewrite the source itself performs. -/

namespace EnvFile

/-- Process state of `utils/env.py`: `os.environ`, the `.env` file content
(`none` when the file does not exist), and the `_env_loaded` flag. -/
structure St where
  osenv : EnvMap
  file : Option PyStr
  loaded : Bool

/-- Parse of one file line by the dotenv loader: split at the first `=`;
lines without `=` bind nothing. -/
def parseLine (l : PyStr) : Option (PyStr × PyStr) :=
  if '=' ∈ l then
    some (l.takeWhile (fun c => c != '='), (l.dropWhile (fun c => c != '=')).tail)
  else none

/-- Application of one parsed line to the environment. -/
def stepLine (m : EnvMap) (l : PyStr) : EnvMap :=
  match parseLine l with
  | some kv => updateEnv m kv.1 kv.2
  | none => m

/-- Folding a whole file's lines over the environment (later lines override). -/
def applyLines (m : EnvMap) (lines : List PyStr) : EnvMap :=
  lines.foldl stepLine m

/-- Embedding of `load_dotenv(dotenv_path, override=True)` over file content. -/
def applyFile (m : EnvMap) (content : PyStr) : EnvMap :=
  applyLines m (splitLines content)

/-- Embedding of `ensure_env_loaded`. -/
def ensure_env_loaded (st : St) : St :=
  if st.loaded then st
  else
    match st.file with
    | some content => { st with osenv := applyFile st.osenv content, loaded := true }
    | none => { st with loaded := true }

/-- Embedding of `get_env` (with its state effect). -/
def get_env (st : St) (name : PyStr) : Option PyStr × St :=
  let st1 := ensure_env_loaded st
  (lookupEnv st1.osenv name, st1)

/-- Whether a file line starts with `name=`, the source's
`line.startswith(f"{var_name}=")` test. -/
def lineBinds (name l : PyStr) : Bool := (name ++ ['=']).isPrefixOf l

/-- The source's read-modify-write over the line list: replace the first line
starting with `name=`, or append a fresh `name=value` line. -/
def replaceOrAppend (lines : List PyStr) (name value : PyStr) : List PyStr :=
  match lines with
  | [] => [name ++ '=' :: value]
  | l :: ls =>
    if lineBinds name l then (name ++ '=' :: value) :: ls
    else l :: replaceOrAppend ls name value

/-- Embedding of `set_env`: update `os.environ`, rewrite the file (creating it
when absent), clear the loaded flag, then run `set_key` (modelled as the same
replace-or-append rewrite) on the file. -/
def set_env (st : St) (name value : PyStr) : St :=
  let st1 := ensure_env_loaded st
  let st2 : St := { st1 with osenv := updateEnv st1.osenv name value }
  let content1 :=
    match st2.file with
    | some content => joinNl (replaceOrAppend (splitLines content) name value) ++ ['\n']
    | none => name ++ '=' :: value ++ ['\n']
  let content2 := joinNl (replaceOrAppend (splitLines content1) name value) ++ ['\n']
  { st2 with file := some content2, loaded := false }

/-- Line list of the persisted file as the loader sees it (no file, no lines). -/
def fileLines (st : St) : List PyStr :=
  match st.file with
  | some c => splitLines c
  | none => []

/-- Value of the last line binding `name` in a line list, the binding the
override-parse leaves in force. -/
def lastBind (n : PyStr) : List PyStr → Option PyStr
  | [] => none
  | l :: ls =>
    match lastBind n ls with
    | some v => some v
    | none =>
      if lineBinds n l then some ((l.dropWhile (fun c => c != '=')).tail) else none

end EnvFile

theorem splitLines_append (l s : PyStr) (h : '\n' ∉ l) :
    splitLines (l ++ '\n' :: s) = l :: splitLines s := by
  induction l with
  | nil => simp [splitLines]
  | cons c t ih =>
    have hc : c ≠ '\n' := fun e => h (by simp [e])
    have ht : '\n' ∉ t := fun e => h (by simp [e])
    show splitLines (c :: (t ++ '\n' :: s)) = (c :: t) :: splitLines s
    rw [splitLines, if_neg (by simpa using hc), ih ht]

theorem splitLines_no_newline (s : PyStr) : ∀ l ∈ splitLines s, '\n' ∉ l := by
  induction s with
  | nil => simp [splitLines]
  | cons c t ih =>
    intro l hl
    by_cases hc : c = '\n'
    · subst hc
      simp only [splitLines, beq_self_eq_true, if_true] at hl
      rcases List.mem_cons.mp hl with hl | hl
      · subst hl; simp
      · exact ih l hl
    · simp only [splitLines] at hl
      rw [if_neg (by simpa using hc)] at hl
      rcases hsp : splitLines t with _ | ⟨a, as⟩
      · rw [hsp] at hl
        simp only [List.mem_singleton] at hl
        subst hl
        intro hmem
        exact hc ((List.mem_singleton.mp hmem).symm)
      · rw [hsp] at hl
        rcases List.mem_cons.mp hl with hl | hl
        · subst hl
          intro hmem
          rcases List.mem_cons.mp hmem with he | he
          · exact hc he.symm
          · exact ih a (by rw [hsp]; exact List.mem_cons_self a as) he
        · exact ih l (by rw [hsp]; exact List.mem_cons_of_mem a hl)

theorem splitLines_joinNl (ls : List PyStr) (hne : ls ≠ [])
    (h : ∀ l ∈ ls, '\n' ∉ l) : splitLines (joinNl ls ++ ['\n']) = ls := by
  induction ls with
  | nil => cases hne rfl
  | cons l ls ih =>
    cases ls with
    | nil =>
      have : joinNl [l] ++ ['\n'] = l ++ '\n' :: [] := by simp [joinNl]
      rw [this, splitLines_append l [] (h l (by simp))]
      simp [splitLines]
    | cons l' ls' =>
      have : joinNl (l :: l' :: ls') ++ ['\n'] = l ++ '\n' :: (joinNl (l' :: ls') ++ ['\n']) := by
        simp [joinNl]
      rw [this, splitLines_append l _ (h l (by simp))]
      rw [ih (by simp) (fun x hx => h x (by simp [hx]))]

theorem takeWhile_neq_append (n rest : PyStr) (hn : '=' ∉ n) :
    (n ++ '=' :: rest).takeWhile (fun c => c != '=') = n := by
  induction n with
  | nil => simp [List.takeWhile]
  | cons c t ih =>
    have hc : c ≠ '=' := fun e => hn (by simp [e])
    have ht : '=' ∉ t := fun e => hn (by simp [e])
    simp only [List.cons_append, List.takeWhile_cons]
    rw [if_pos (by simpa using hc), ih ht]

theorem dropWhile_neq_append (n rest : PyStr) (hn : '=' ∉ n) :
    (n ++ '=' :: rest).dropWhile (fun c => c != '=') = '=' :: rest := by
  induction n with
  | nil => simp [List.dropWhile]
  | cons c t ih =>
    have hc : c ≠ '=' := fun e => hn (by simp [e])
    have ht : '=' ∉ t := fun e => hn (by simp [e])
    simp only [List.cons_append, List.dropWhile_cons]
    rw [if_pos (by simpa using hc), ih ht]

theorem dropWhile_head_false {p : Char → Bool} :
    ∀ (l : PyStr) (c : Char) (t : PyStr), l.dropWhile p = c :: t → p c = false := by
  intro l
  induction l with
  | nil => intro c t h; simp [List.dropWhile] at h
  | cons a l ih =>
    intro c t h
    rw [List.dropWhile_cons] at h
    by_cases hp : p a = true
    · rw [if_pos hp] at h
      exact ih c t h
    · rw [if_neg hp] at h
      cases h
      simpa using hp

theorem lineBinds_self (n v : PyStr) : EnvFile.lineBinds n (n ++ '=' :: v) = true := by
  rw [EnvFile.lineBinds, List.isPrefixOf_iff_prefix]
  exact ⟨v, by simp⟩

theorem lineBinds_decomp {n l : PyStr} (h : EnvFile.lineBinds n l = true) :
    ∃ rest, l = n ++ '=' :: rest := by
  rw [EnvFile.lineBinds, List.isPrefixOf_iff_prefix] at h
  obtain ⟨rest, hrest⟩ := h
  exact ⟨rest, by rw [← hrest]; simp⟩

theorem lineBinds_unique {n m rest : PyStr} (hn : '=' ∉ n) (hm : '=' ∉ m)
    (h : EnvFile.lineBinds n (m ++ '=' :: rest) = true) : n = m := by
  obtain ⟨t, ht⟩ := lineBinds_decomp h
  have h1 := takeWhile_neq_append m rest hm
  have h2 := takeWhile_neq_append n t hn
  rw [ht] at h1
  rw [h2] at h1
  exact h1

theorem lineBinds_of_key {n l : PyStr} (hmem : '=' ∈ l)
    (hkey : l.takeWhile (fun c => c != '=') = n) : EnvFile.lineBinds n l = true := by
  have hdec := List.takeWhile_append_dropWhile (p := fun c => c != '=') (l := l)
  rcases hd : l.dropWhile (fun c => c != '=') with _ | ⟨c, t⟩
  · exfalso
    rw [hd] at hdec
    simp only [List.append_nil] at hdec
    have hall : ∀ x ∈ l, (fun c => c != '=') x = true := by
      rw [← hdec]
      exact fun x hx => List.mem_takeWhile_imp (p := fun c => c != '=') hx
    have := hall '=' hmem
    simp at this
  · have hc : (fun c => c != '=') c = false := dropWhile_head_false l c t hd
    have hc' : c = '=' := by simpa using hc
    subst hc'
    rw [EnvFile.lineBinds, List.isPrefixOf_iff_prefix]
    refine ⟨t, ?_⟩
    rw [← hdec, hd, hkey]
    simp

theorem stepLine_lookup (n : PyStr) (hn : '=' ∉ n) (m : EnvMap) (l : PyStr) :
    lookupEnv (EnvFile.stepLine m l) n =
      if EnvFile.lineBinds n l then some ((l.dropWhile (fun c => c != '=')).tail)
      else lookupEnv m n := by
  by_cases hb : EnvFile.lineBinds n l = true
  · obtain ⟨rest, hrest⟩ := lineBinds_decomp hb
    subst hrest
    rw [EnvFile.stepLine, EnvFile.parseLine, if_pos (by simp)]
    simp only [takeWhile_neq_append n rest hn, dropWhile_neq_append n rest hn]
    rw [if_pos hb]
    simp [lookupEnv_updateEnv_self]
  · simp only [Bool.not_eq_true] at hb
    rw [if_neg (by simp [hb])]
    rw [EnvFile.stepLine, EnvFile.parseLine]
    by_cases hmem : '=' ∈ l
    · rw [if_pos hmem]
      have hk : l.takeWhile (fun c => c != '=') ≠ n := by
        intro he
        rw [lineBinds_of_key hmem he] at hb
        cases hb
      exact lookupEnv_updateEnv_other m _ n _ hk
    · rw [if_neg hmem]

theorem lastBind_of_no_bind {n : PyStr} :
    ∀ {ls : List PyStr}, (∀ l ∈ ls, EnvFile.lineBinds n l = false) →
    EnvFile.lastBind n ls = none := by
  intro ls
  induction ls with
  | nil => intro _; rfl
  | cons l ls ih =>
    intro h
    rw [EnvFile.lastBind, ih (fun x hx => h x (List.mem_cons_of_mem l hx))]
    simp [h l (List.mem_cons_self l ls)]

theorem lookup_applyLines (n : PyStr) (hn : '=' ∉ n) :
    ∀ (lines : List PyStr) (m : EnvMap),
    lookupEnv (EnvFile.applyLines m lines) n =
      match EnvFile.lastBind n lines with
      | some v => some v
      | none => lookupEnv m n := by
  intro lines
  induction lines with
  | nil => intro m; rfl
  | cons l ls ih =>
    intro m
    have hstep : EnvFile.applyLines m (l :: ls) = EnvFile.applyLines (EnvFile.stepLine m l) ls := rfl
    rw [hstep, ih]
    rw [EnvFile.lastBind]
    cases hlast : EnvFile.lastBind n ls with
    | some v => rfl
    | none =>
      rw [stepLine_lookup n hn]
      by_cases hb : EnvFile.lineBinds n l = true
      · rw [if_pos hb, if_pos hb]
      · simp only [Bool.not_eq_true] at hb
        rw [if_neg (by simp [hb]), if_neg (by simp [hb])]

theorem countP_eq_zero_no_bind {n : PyStr} {ls : List PyStr}
    (h : ls.countP (EnvFile.lineBinds n) = 0) :
    ∀ l ∈ ls, EnvFile.lineBinds n l = false := by
  intro l hl
  have := List.countP_eq_zero.mp h
  have hx := this l hl
  simpa using hx

theorem lastBind_replaceOrAppend_self (n v : PyStr) (hn : '=' ∉ n) :
    ∀ (lines : List PyStr), lines.countP (EnvFile.lineBinds n) ≤ 1 →
    EnvFile.lastBind n (EnvFile.replaceOrAppend lines n v) = some v := by
  intro lines
  induction lines with
  | nil =>
    intro _
    rw [EnvFile.replaceOrAppend, EnvFile.lastBind]
    simp [EnvFile.lastBind, lineBinds_self, dropWhile_neq_append n v hn]
  | cons l ls ih =>
    intro hc
    rw [EnvFile.replaceOrAppend]
    by_cases hb : EnvFile.lineBinds n l = true
    · rw [if_pos hb]
      have hzero : ls.countP (EnvFile.lineBinds n) = 0 := by
        have := hc
        rw [List.countP_cons, if_pos (by simpa using hb)] at this
        omega
      rw [EnvFile.lastBind, lastBind_of_no_bind (countP_eq_zero_no_bind hzero)]
      simp [lineBinds_self, dropWhile_neq_append n v hn]
    · rw [if_neg hb]
      have hle : ls.countP (EnvFile.lineBinds n) ≤ 1 := by
        have := hc
        rw [List.countP_cons] at this
        omega
      rw [EnvFile.lastBind, ih hle]

theorem lastBind_replaceOrAppend_other (n m v2 : PyStr) (hn : '=' ∉ n)
    (hm : '=' ∉ m) (hne : n ≠ m) :
    ∀ (lines : List PyStr),
    EnvFile.lastBind n (EnvFile.replaceOrAppend lines m v2) = EnvFile.lastBind n lines := by
  have hnewline : EnvFile.lineBinds n (m ++ '=' :: v2) = false := by
    cases hq : EnvFile.lineBinds n (m ++ '=' :: v2) with
    | false => rfl
    | true => exact absurd (lineBinds_unique hn hm hq) hne
  intro lines
  induction lines with
  | nil =>
    rw [EnvFile.replaceOrAppend, EnvFile.lastBind, EnvFile.lastBind]
    simp [hnewline, EnvFile.lastBind]
  | cons l ls ih =>
    rw [EnvFile.replaceOrAppend]
    by_cases hb : EnvFile.lineBinds m l = true
    · rw [if_pos hb]
      obtain ⟨rest, hrest⟩ := lineBinds_decomp hb
      have hlb : EnvFile.lineBinds n l = false := by
        cases hq : EnvFile.lineBinds n l with
        | false => rfl
        | true =>
          rw [hrest] at hq
          exact absurd (lineBinds_unique hn hm hq) hne
      rw [EnvFile.lastBind, EnvFile.lastBind]
      cases hlast : EnvFile.lastBind n ls with
      | some v => rfl
      | none => rw [hnewline, hlb]; simp
    · rw [if_neg hb]
      rw [EnvFile.lastBind, EnvFile.lastBind, ih]

theorem countP_replaceOrAppend_self (n v : PyStr) :
    ∀ (lines : List PyStr), lines.countP (EnvFile.lineBinds n) ≤ 1 →
    (EnvFile.replaceOrAppend lines n v).countP (EnvFile.lineBinds n) = 1 := by
  intro lines
  induction lines with
  | nil =>
    intro _
    rw [EnvFile.replaceOrAppend]
    simp [List.countP_cons, lineBinds_self]
  | cons l ls ih =>
    intro hc
    rw [EnvFile.replaceOrAppend]
    by_cases hb : EnvFile.lineBinds n l = true
    · rw [if_pos hb]
      have hzero : ls.countP (EnvFile.lineBinds n) = 0 := by
        have := hc
        rw [List.countP_cons, if_pos (by simpa using hb)] at this
        omega
      rw [List.countP_cons]
      simp [lineBinds_self, hzero]
    · rw [if_neg hb]
      have hle : ls.countP (EnvFile.lineBinds n) ≤ 1 := by
        have := hc
        rw [List.countP_cons] at this
        omega
      rw [List.countP_cons, ih hle]
      simp [hb]

theorem countP_replaceOrAppend_other (n m v2 : PyStr) (hn : '=' ∉ n)
    (hm : '=' ∉ m) (hne : n ≠ m) :
    ∀ (lines : List PyStr),
    (EnvFile.replaceOrAppend lines m v2).countP (EnvFile.lineBinds n) =
      lines.countP (EnvFile.lineBinds n) := by
  have hnewline : EnvFile.lineBinds n (m ++ '=' :: v2) = false := by
    cases hq : EnvFile.lineBinds n (m ++ '=' :: v2) with
    | false => rfl
    | true => exact absurd (lineBinds_unique hn hm hq) hne
  intro lines
  induction lines with
  | nil =>
    rw [EnvFile.replaceOrAppend]
    simp [List.countP_cons, hnewline]
  | cons l ls ih =>
    rw [EnvFile.replaceOrAppend]
    by_cases hb : EnvFile.lineBinds m l = true
    · rw [if_pos hb]
      obtain ⟨rest, hrest⟩ := lineBinds_decomp hb
      have hlb : EnvFile.lineBinds n l = false := by
        cases hq : EnvFile.lineBinds n l with
        | false => rfl
        | true =>
          rw [hrest] at hq
          exact absurd (lineBinds_unique hn hm hq) hne
      rw [List.countP_cons, List.countP_cons]
      simp [hnewline, hlb]
    · rw [if_neg hb]
      rw [List.countP_cons, List.countP_cons, ih]

theorem replaceOrAppend_ne_nil (lines : List PyStr) (n v : PyStr) :
    EnvFile.replaceOrAppend lines n v ≠ [] := by
  cases lines with
  | nil => simp [EnvFile.replaceOrAppend]
  | cons l ls =>
    rw [EnvFile.replaceOrAppend]
    by_cases hb : EnvFile.lineBinds n l = true
    · rw [if_pos hb]; simp
    · rw [if_neg hb]; simp

theorem replaceOrAppend_no_newline (n v : PyStr) (hn : '\n' ∉ n) (hv : '\n' ∉ v) :
    ∀ (lines : List PyStr), (∀ l ∈ lines, '\n' ∉ l) →
    ∀ l ∈ EnvFile.replaceOrAppend lines n v, '\n' ∉ l := by
  have hnew : '\n' ∉ n ++ '=' :: v := by
    intro hmem
    rcases List.mem_append.mp hmem with h | h
    · exact hn h
    · rcases List.mem_cons.mp h with h | h
      · cases h
      · exact hv h
  intro lines
  induction lines with
  | nil =>
    intro _ l hl
    rw [EnvFile.replaceOrAppend] at hl
    rw [List.mem_singleton.mp hl]
    exact hnew
  | cons a ls ih =>
    intro hall l hl
    rw [EnvFile.replaceOrAppend] at hl
    by_cases hb : EnvFile.lineBinds n a = true
    · rw [if_pos hb] at hl
      rcases List.mem_cons.mp hl with h | h
      · rw [h]; exact hnew
      · exact hall l (List.mem_cons_of_mem a h)
    · rw [if_neg hb] at hl
      rcases List.mem_cons.mp hl with h | h
      · rw [h]; exact hall a (List.mem_cons_self a ls)
      · exact ih (fun x hx => hall x (List.mem_cons_of_mem a hx)) l h

theorem no_newline_bindLine {n v : PyStr} (hn : '\n' ∉ n) (hv : '\n' ∉ v) :
    '\n' ∉ n ++ '=' :: v := by
  intro hmem
  rcases List.mem_append.mp hmem with h | h
  · exact hn h
  · rcases List.mem_cons.mp h with h | h
    · cases h
    · exact hv h

theorem splitLines_of_rep (lines : List PyStr) (n v : PyStr)
    (hlines : ∀ l ∈ lines, '\n' ∉ l) (hn : '\n' ∉ n) (hv : '\n' ∉ v) :
    splitLines (joinNl (EnvFile.replaceOrAppend lines n v) ++ ['\n']) =
      EnvFile.replaceOrAppend lines n v :=
  splitLines_joinNl _ (replaceOrAppend_ne_nil lines n v)
    (replaceOrAppend_no_newline n v hn hv lines hlines)

theorem fileLines_set_env (st : EnvFile.St) (n v : PyStr)
    (hn : '\n' ∉ n) (hv : '\n' ∉ v) :
    (EnvFile.set_env st n v).loaded = false ∧
    ∃ c2, (EnvFile.set_env st n v).file = some c2 ∧
      splitLines c2 =
        EnvFile.replaceOrAppend
          (EnvFile.replaceOrAppend (EnvFile.fileLines st) n v) n v := by
  obtain ⟨osenv, file, loaded⟩ := st
  cases file with
  | none =>
    have h1 : splitLines (n ++ '=' :: v ++ ['\n']) = [n ++ '=' :: v] := by
      have he : n ++ '=' :: v ++ ['\n'] = (n ++ '=' :: v) ++ '\n' :: [] := by simp
      rw [he, splitLines_append _ _ (no_newline_bindLine hn hv)]
      rfl
    have hone : ∀ l ∈ [n ++ '=' :: v], '\n' ∉ l := by
      intro l hl
      rw [List.mem_singleton.mp hl]
      exact no_newline_bindLine hn hv
    have h2 := splitLines_of_rep [n ++ '=' :: v] n v hone hn hv
    cases loaded with
    | false =>
      refine ⟨rfl, _, rfl, ?_⟩
      show splitLines
          (joinNl (EnvFile.replaceOrAppend (splitLines (n ++ '=' :: v ++ ['\n'])) n v) ++
            ['\n']) = _
      rw [h1]
      exact h2
    | true =>
      refine ⟨rfl, _, rfl, ?_⟩
      show splitLines
          (joinNl (EnvFile.replaceOrAppend (splitLines (n ++ '=' :: v ++ ['\n'])) n v) ++
            ['\n']) = _
      rw [h1]
      exact h2
  | some c =>
    have hc0 : ∀ l ∈ splitLines c, '\n' ∉ l := splitLines_no_newline c
    have h1 : splitLines (joinNl (EnvFile.replaceOrAppend (splitLines c) n v) ++ ['\n']) =
        EnvFile.replaceOrAppend (splitLines c) n v := splitLines_of_rep _ n v hc0 hn hv
    have hrep1 : ∀ l ∈ EnvFile.replaceOrAppend (splitLines c) n v, '\n' ∉ l :=
      replaceOrAppend_no_newline n v hn hv _ hc0
    have h2 := splitLines_of_rep (EnvFile.replaceOrAppend (splitLines c) n v) n v hrep1 hn hv
    cases loaded with
    | false =>
      refine ⟨rfl, _, rfl, ?_⟩
      show splitLines
          (joinNl (EnvFile.replaceOrAppend
            (splitLines (joinNl (EnvFile.replaceOrAppend (splitLines c) n v) ++ ['\n'])) n v) ++
            ['\n']) = _
      rw [h1]
      exact h2
    | true =>
      refine ⟨rfl, _, rfl, ?_⟩
      show splitLines
          (joinNl (EnvFile.replaceOrAppend
            (splitLines (joinNl (EnvFile.replaceOrAppend (splitLines c) n v) ++ ['\n'])) n v) ++
            ['\n']) = _
      rw [h1]
      exact h2

theorem get_env_unloaded (st : EnvFile.St) (n : PyStr) (hn : '=' ∉ n) (c : PyStr)
    (hl : st.loaded = false) (hf : st.file = some c) :
    (EnvFile.get_env st n).1 =
      match EnvFile.lastBind n (splitLines c) with
      | some v => some v
      | none => lookupEnv st.osenv n := by
  show lookupEnv (EnvFile.ensure_env_loaded st).osenv n = _
  rw [EnvFile.ensure_env_loaded, if_neg (by simp [hl]), hf]
  exact lookup_applyLines n hn (splitLines c) st.osenv

/-- C7 counterexample: starting from a file holding only `A=1`, storing the
value `a\nb` (which contains a newline) under the name `N` and reading `N`
back in the same process yields `a`, not the stored value, because the
read-modify-write splits the value across two file lines; so `set` followed by
`get` does not return the written value for every name and value. -/
theorem c7_counterexample :
    (EnvFile.get_env
        (EnvFile.set_env ⟨[], some (str "A=1\n"), false⟩ (str "N")
          (str "a" ++ '\n' :: str "b"))
        (str "N")).1 = some (str "a") ∧
    some (str "a") ≠ some (str "a" ++ '\n' :: str "b") := by
  exact ⟨by decide, by decide⟩

/-- C7 (amended): for every name containing neither `=` nor a newline and every
newline-free value, `set(n, v)` immediately followed by `get(n)` returns `v`
within the same process, and a subsequent `set(m, v2)` with `m ≠ n` (likewise
well-formed) leaves `get(n)` unchanged, provided the persisted file holds at
most one binding line for `n`; `set` replaces only the matching line or appends
one, leaving unrelated lines alone. -/
theorem c7_credential_store_roundtrip_amended
    (st : EnvFile.St) (n m v v2 : PyStr)
    (hn_eq : '=' ∉ n) (hn_nl : '\n' ∉ n) (hv_nl : '\n' ∉ v)
    (hm_eq : '=' ∉ m) (hm_nl : '\n' ∉ m) (hv2_nl : '\n' ∉ v2)
    (hnm : n ≠ m)
    (hcn : (EnvFile.fileLines st).countP (EnvFile.lineBinds n) ≤ 1) :
    (EnvFile.get_env (EnvFile.set_env st n v) n).1 = some v ∧
    (EnvFile.get_env (EnvFile.set_env (EnvFile.set_env st n v) m v2) n).1 = some v := by
  obtain ⟨hload1, c2, hfile1, hsplit1⟩ := fileLines_set_env st n v hn_nl hv_nl
  have hc1le : (EnvFile.replaceOrAppend (EnvFile.fileLines st) n v).countP
      (EnvFile.lineBinds n) ≤ 1 :=
    le_of_eq (countP_replaceOrAppend_self n v _ hcn)
  have hlast1 : EnvFile.lastBind n (splitLines c2) = some v := by
    rw [hsplit1]
    exact lastBind_replaceOrAppend_self n v hn_eq _ hc1le
  constructor
  · rw [get_env_unloaded _ n hn_eq c2 hload1 hfile1, hlast1]
  · obtain ⟨hload2, c3, hfile2, hsplit2⟩ :=
      fileLines_set_env (EnvFile.set_env st n v) m v2 hm_nl hv2_nl
    have hfl2 : EnvFile.fileLines (EnvFile.set_env st n v) = splitLines c2 := by
      rw [EnvFile.fileLines, hfile1]
    have hlast3 : EnvFile.lastBind n (splitLines c3) = some v := by
      rw [hsplit2, hfl2,
          lastBind_replaceOrAppend_other n m v2 hn_eq hm_eq hnm,
          lastBind_replaceOrAppend_other n m v2 hn_eq hm_eq hnm]
      exact hlast1
    rw [get_env_unloaded _ n hn_eq c3 hload2 hfile2, hlast3]

theorem c7_credential_store_roundtrip_amended_witness :
    (EnvFile.get_env
        (EnvFile.set_env ⟨[], some (str "A=1\n"), false⟩ (str "N") (str "val"))
        (str "N")).1 = some (str "val") ∧
    (EnvFile.get_env
        (EnvFile.set_env
          (EnvFile.set_env ⟨[], some (str "A=1\n"), false⟩ (str "N") (str "val"))
          (str "M") (str "w"))
        (str "N")).1 = some (str "val") := by
  exact c7_credential_store_roundtrip_amended ⟨[], some (str "A=1\n"), false⟩
    (str "N") (str "M") (str "val") (str "w")
    (by decide) (by decide) (by decide) (by decide) (by decide) (by decide)
    (by decide) (by decide)

namespace Facebook

/-- Loosely-typed provider error payload, read with `dict.get` in the source:
every field may be absent. -/
structure Err where
  code : Option Int
  error_subcode : Option Int
  subcode : Option Int
  message : Option PyStr
deriving DecidableEq

/-- Python `a or b` on optional integers, as in
`err.get('error_subcode') or err.get('subcode')`: the first operand wins when
it is truthy (present and nonzero), otherwise the second is returned. -/
def pyOrOptInt (a b : Option Int) : Option Int :=
  match a with
  | some n => if n == 0 then b else some n
  | none => b

/-- Embedding of `_should_refresh_token` from `src/platforms/facebook.py`. -/
def should_refresh_token (err : Err) : Bool :=
  let code := err.code
  let subcode := pyOrOptInt err.error_subcode err.subcode
  let message := pyLower (err.message.getD [])
  if code == some 190 then true
  else if subcode == some 460 || subcode == some 463 || subcode == some 467 then true
  else if pyContains message (str "expired") then true
  else false

/-- Provider response to a feed `POST`: either the request raises, or it
returns a status with the parsed error object (all-absent when the body is not
JSON or has no `error` key) and the raw body text. -/
structure Resp where
  raises : Option PyStr
  status : Nat
  err : Err
  text : PyStr

/-- World of the feed-style adapter: the process environment and the
provider's responses — the feed endpoint keyed by the message and the access
token used, the
long-lived-token exchange, and the page-list lookup. -/
structure World where
  env : EnvMap
  feed : PyStr → PyStr → Resp
  exchangeRaises : Bool
  exchangeTok : Option PyStr
  accountsRaises : Bool
  accounts : List (PyStr × Option PyStr)

/-- Observable steps of the feed adapter. -/
inductive Ev where
  | feedCall (token : PyStr)
  | refreshChain
deriving DecidableEq

/-- Embedding of the lookup loop of `_get_page_access_token`: the first account
whose id matches the page id yields its (possibly absent) access token. -/
def get_page_access_token (accounts : List (PyStr × Option PyStr)) (page_id : PyStr) :
    Option PyStr :=
  match accounts with
  | [] => none
  | (pid, tok) :: rest => if pid == page_id then tok else get_page_access_token rest page_id

/-- Embedding of `_refresh_facebook_page_token`: checks the three refresh
prerequisites, exchanges the user token for a long-lived one, looks up the
page-scoped token, persists it under `FACEBOOK_ACCESS_TOKEN`, and returns it;
any raise or missing value yields `None` (the function wraps its body in a
`try`). Returns the token and the updated environment. -/
def refresh_facebook_page_token (w : World) (page_id : PyStr) : Option PyStr × EnvMap :=
  let app_id := lookupEnv w.env (str "FACEBOOK_APP_ID")
  let app_secret := lookupEnv w.env (str "FACEBOOK_APP_SECRET")
  let user_token := lookupEnv w.env (str "FACEBOOK_USER_ACCESS_TOKEN")
  if !(pyTruthy app_id) || !(pyTruthy app_secret) || !(pyTruthy user_token) then (none, w.env)
  else if w.exchangeRaises then (none, w.env)
  else if !(pyTruthy w.exchangeTok) then (none, w.env)
  else if w.accountsRaises then (none, w.env)
  else
    let page_token := get_page_access_token w.accounts page_id
    if !(pyTruthy page_token) then (none, w.env)
    else (page_token, updateEnv w.env (str "FACEBOOK_ACCESS_TOKEN") (page_token.getD []))

/-- Embedding of `post`: missing credentials fail fast; otherwise the feed is
posted inside a `try`; a non-200 response classified by the refresh predicate
triggers the refresh chain and, on success, exactly one retry with the new
token whose failure is terminal; all raises inside the `try` become
`(False, message)` results. -/
def post (w : World) (content : PyStr) :
    Except PyErr (Bool × PyStr) × EnvMap × List Ev :=
  let page_id := lookupEnv w.env (str "FACEBOOK_PAGE_ID")
  let access_token := lookupEnv w.env (str "FACEBOOK_ACCESS_TOKEN")
  if !(pyTruthy page_id) || !(pyTruthy access_token) then
    (.ok (false, str "Credentials missing."), w.env, [])
  else
    let t0 := access_token.getD []
    let r := w.feed content t0
    match r.raises with
    | some e => (.ok (false, str "Exception: " ++ e), w.env, [Ev.feedCall t0])
    | none =>
      if r.status == 200 then (.ok (true, str "Post successful."), w.env, [Ev.feedCall t0])
      else if should_refresh_token r.err then
        let rc := refresh_facebook_page_token w (page_id.getD [])
        match rc.1 with
        | some nt =>
          let r2 := w.feed content nt
          match r2.raises with
          | some e =>
            (.ok (false, str "Exception: " ++ e), rc.2,
             [Ev.feedCall t0, Ev.refreshChain, Ev.feedCall nt])
          | none =>
            if r2.status == 200 then
              (.ok (true, str "Post successful."), rc.2,
               [Ev.feedCall t0, Ev.refreshChain, Ev.feedCall nt])
            else
              (.ok (false, str "Error after refresh: " ++ r2.text), rc.2,
               [Ev.feedCall t0, Ev.refreshChain, Ev.feedCall nt])
        | none => (.ok (false, str "Error: " ++ r.text), rc.2, [Ev.feedCall t0, Ev.refreshChain])
      else (.ok (false, str "Error: " ++ r.text), w.env, [Ev.feedCall t0])

end Facebook

/-- C4: the feed-style adapter's refresh predicate returns true exactly when
the error code is 190, or the effective subcode (`error_subcode`, falling back
to `subcode` under Python `or`) is one of 460, 463, 467, or the lower-cased
message contains `expired`; in particular it accepts `{code: 190}`,
`{subcode: 463}`, a message containing `expired`, and rejects
`{code: 4, message: "rate limited"}`. -/
theorem c4_should_refresh_token_characterization :
    (∀ err : Facebook.Err,
      Facebook.should_refresh_token err = true ↔
        (err.code = some 190 ∨
         (Facebook.pyOrOptInt err.error_subcode err.subcode = some 460 ∨
          Facebook.pyOrOptInt err.error_subcode err.subcode = some 463 ∨
          Facebook.pyOrOptInt err.error_subcode err.subcode = some 467) ∨
         pyContains (pyLower (err.message.getD [])) (str "expired") = true))
    ∧ Facebook.should_refresh_token ⟨some 190, none, none, none⟩ = true
    ∧ Facebook.should_refresh_token ⟨none, none, some 463, none⟩ = true
    ∧ Facebook.should_refresh_token
        ⟨none, none, none, some (str "Error validating access token: Session has expired")⟩ = true
    ∧ Facebook.should_refresh_token ⟨some 4, none, none, some (str "rate limited")⟩ = false := by
  refine ⟨fun err => ?_, by decide, by decide, by decide, by decide⟩
  simp only [Facebook.should_refresh_token]
  by_cases h1 : err.code = some 190
  · simp [h1]
  · have h1' : (err.code == some 190) = false := by
      simpa using h1
    simp only [h1', if_false]
    by_cases h2 : Facebook.pyOrOptInt err.error_subcode err.subcode = some 460 ∨
        Facebook.pyOrOptInt err.error_subcode err.subcode = some 463 ∨
        Facebook.pyOrOptInt err.error_subcode err.subcode = some 467
    · rcases h2 with h | h | h <;> simp [h, h1]
    · push_neg at h2
      obtain ⟨g1, g2, g3⟩ := h2
      have e1 : (Facebook.pyOrOptInt err.error_subcode err.subcode == some 460) = false := by
        simpa using g1
      have e2 : (Facebook.pyOrOptInt err.error_subcode err.subcode == some 463) = false := by
        simpa using g2
      have e3 : (Facebook.pyOrOptInt err.error_subcode err.subcode == some 467) = false := by
        simpa using g3
      simp [e1, e2, e3, h1, g1, g2, g3]

/-! ## Microblog adapter: `src/platforms/x.py` -/

namespace XPlat

/-- Token dictionary persisted in `.x_token.json`, read with `dict.get`:
`expires_at` and `refresh_token` may be absent. -/
structure Token where
  access : PyStr
  expires_at : Option Nat
  refresh_token : Option PyStr
deriving DecidableEq

/-- State of the token file: absent, present but not valid JSON (so
`json.load` raises), or holding a token. -/
inductive TokenFile where
  | absent
  | corrupt
  | stored (t : Token)
deriving DecidableEq

/-- Observable steps of the adapter, in order of occurrence. -/
inductive Ev where
  | probe
  | refreshCall
  | pkce
  | publish (text : PyStr)
deriving DecidableEq

/-- World of the microblog adapter: environment, token file, clock, and the
provider's responses; the interactive PKCE flow (secure-random verifier,
hashed challenge, browser consent, pasted callback, code exchange) is
abstracted to its outcome `pkceTok`. -/
structure World where
  env : EnvMap
  tokenFile : TokenFile
  now : Nat
  probeRaises : Bool
  probeStatus : Nat
  refreshRaises : Bool
  refreshStatus : Nat
  refreshTok : Token
  pkceTok : Option Token
  publishRaises : Option PyStr
  publishStatus : Nat
  publishTweetId : Option PyStr
  publishDetail : Option PyStr

/-- Embedding of `load_token`: absent file yields `None`; a file that is not
valid JSON makes `json.load` raise. -/
def load_token (w : World) : Except PyErr (Option Token) :=
  match w.tokenFile with
  | .absent => .ok none
  | .corrupt => .error (str "json.decoder.JSONDecodeError")
  | .stored t => .ok (some t)

/-- Embedding of the module-level `refresh_token` function: posts to the token
endpoint; on 200 the response token (with the old refresh value restored when
the response lacks one) is saved and returned, otherwise `None`. -/
def refresh_token (w : World) (rt : PyStr) : Option Token :=
  if w.refreshStatus == 200 then
    let td := w.refreshTok
    some (if td.refresh_token.isNone then { td with refresh_token := some rt } else td)
  else none

/-- Outcome of the interactive PKCE branch: the flow event plus its oracle
outcome, saving the obtained token. -/
def pkcePart (w : World) (evs : List Ev) : Except PyErr (Option Token) × TokenFile × List Ev :=
  match w.pkceTok with
  | some t => (.ok (some t), .stored t, evs ++ [Ev.pkce])
  | none => (.ok none, w.tokenFile, evs ++ [Ev.pkce])

/-- The stored-token branch guarded by the expiry test: inside the `try`, the
session is built and probed with `users/me`; a raise or a non-200 probe falls
through with a warning. Returns the token to use as-is (if any) and the events
so far. -/
def validBranch (w : World) (t : Token) : Option Token × List Ev :=
  if t.expires_at.getD 0 > w.now + 60 then
    if w.probeRaises then (none, [])
    else if w.probeStatus == 200 then (some t, [Ev.probe])
    else (none, [Ev.probe])
  else (none, [])

/-- The refresh-then-PKCE stage entered when the stored token was not used
as-is: refresh when a refresh value exists (a raise or failure falls through
to the PKCE flow), else go straight to the PKCE flow. -/
def refreshStage (w : World) (t : Token) (evs : List Ev) :
    Except PyErr (Option Token) × TokenFile × List Ev :=
  match t.refresh_token with
  | some rt =>
    if w.refreshRaises then pkcePart w (evs ++ [Ev.refreshCall])
    else
      match refresh_token w rt with
      | some nt => (.ok (some nt), .stored nt, evs ++ [Ev.refreshCall])
      | none => pkcePart w (evs ++ [Ev.refreshCall])
  | none => pkcePart w evs

/-- Embedding of `get_authenticated_session`: checks client credentials, loads
the stored token (a raise here propagates), uses it as-is when its expiry is
more than 60 seconds away and the `users/me` probe succeeds, otherwise
attempts a refresh when a refresh value exists, and falls through to the
interactive PKCE flow when that fails. Returns the session's token (`none`
when authentication failed), the resulting token file, and the event trace. -/
def get_authenticated_session (w : World) :
    Except PyErr (Option Token) × TokenFile × List Ev :=
  let cid := lookupEnv w.env (str "X_CLIENT_ID")
  let csec := lookupEnv w.env (str "X_CLIENT_SECRET")
  if !(pyTruthy cid) || !(pyTruthy csec) then (.ok none, w.tokenFile, [])
  else
    match load_token w with
    | .error e => (.error e, w.tokenFile, [])
    | .ok none => pkcePart w []
    | .ok (some t) =>
      let valid := validBranch w t
      match valid.1 with
      | some t' => (.ok (some t'), w.tokenFile, valid.2)
      | none => refreshStage w t valid.2

/-- Embedding of `post`: acquires a session (note: outside any `try`, so a
raise during token loading propagates), then posts the 280-truncated text
inside a `try` that converts any raise into a `(False, message)` result. -/
def post (w : World) (content : PyStr) : Except PyErr (Bool × PyStr) × TokenFile × List Ev :=
  let s := get_authenticated_session w
  match s.1 with
  | .error e => (.error e, s.2.1, s.2.2)
  | .ok none => (.ok (false, str "Authentication failed"), s.2.1, s.2.2)
  | .ok (some _) =>
    let evs := s.2.2 ++ [Ev.publish (content.take 280)]
    match w.publishRaises with
    | some e => (.ok (false, str "Exception: " ++ e), s.2.1, evs)
    | none =>
      if w.publishStatus == 201 then
        let url :=
          match w.publishTweetId with
          | some tid => str "https://twitter.com/user/status/" ++ tid
          | none => str "Unknown URL"
        (.ok (true, str "Post successful. " ++ url), s.2.1, evs)
      else
        (.ok (false, str "Error: " ++ w.publishDetail.getD (str "Unknown error")), s.2.1, evs)

end XPlat

theorem xplat_session_ok (w : XPlat.World) (h : w.tokenFile ≠ .corrupt) :
    ∃ o, (XPlat.get_authenticated_session w).1 = .ok o := by
  rw [XPlat.get_authenticated_session]
  rcases htf : w.tokenFile with _ | _ | t
  · simp only [XPlat.load_token, htf]
    unfold XPlat.pkcePart
    repeat' split
    all_goals exact ⟨_, rfl⟩
  · exact absurd htf h
  · simp only [XPlat.load_token, htf]
    unfold XPlat.refreshStage XPlat.pkcePart
    repeat' split
    all_goals exact ⟨_, rfl⟩

/-- Concrete microblog world whose token file exists but holds invalid JSON. -/
def c2World : XPlat.World :=
  { env := [(str "X_CLIENT_ID", str "cid"), (str "X_CLIENT_SECRET", str "cs")]
    tokenFile := .corrupt
    now := 0
    probeRaises := false
    probeStatus := 200
    refreshRaises := false
    refreshStatus := 200
    refreshTok := ⟨str "a", none, none⟩
    pkceTok := none
    publishRaises := none
    publishStatus := 201
    publishTweetId := none
    publishDetail := none }

/-- C2 counterexample: with client credentials set and a token file that is
not valid JSON, the microblog adapter's `post` lets the `json.load` exception
escape to the caller instead of returning a `(False, message)` result, because
session acquisition happens outside `post`'s `try` block. -/
theorem c2_counterexample :
    (XPlat.post c2World (str "hello")).1 =
      .error (str "json.decoder.JSONDecodeError") := by
  rfl

/-- C2 (amended): adapter-internal errors raised during the provider-call
phase never escape `post` — they are converted to a returned result — and in
the feed-style adapter no error escapes at all; but in the microblog adapter
an exception raised while loading the stored token file (session acquisition
being outside `post`'s `try`) propagates to the caller, so the guarantee holds
there only when the token file is readable. -/
theorem c2_no_escape_amended :
    (∀ (w : XPlat.World) (content : PyStr),
      w.tokenFile ≠ .corrupt → ∃ r, (XPlat.post w content).1 = .ok r) ∧
    (∀ (w : Facebook.World) (content : PyStr), ∃ r, (Facebook.post w content).1 = .ok r) := by
  constructor
  · intro w content h
    obtain ⟨o, ho⟩ := xplat_session_ok w h
    simp only [XPlat.post, ho]
    cases o with
    | none => exact ⟨_, rfl⟩
    | some t =>
      repeat' split
      all_goals first
        | exact ⟨_, rfl⟩
        | simp_all
  · intro w content
    dsimp only [Facebook.post]
    repeat' split
    all_goals exact ⟨_, rfl⟩

theorem c2_no_escape_amended_witness :
    (c2World.tokenFile = XPlat.TokenFile.corrupt) ∧
    (∃ r, (XPlat.post { c2World with tokenFile := .absent } (str "hello")).1 = .ok r) ∧
    (∃ r, (Facebook.post
        ⟨[], fun _ _ => ⟨none, 200, ⟨none, none, none, none⟩, str ""⟩,
         false, none, false, []⟩ (str "hello")).1 = .ok r) := by
  refine ⟨rfl, ?_, ?_⟩
  · exact c2_no_escape_amended.1 { c2World with tokenFile := .absent } (str "hello")
      (by decide)
  · exact c2_no_escape_amended.2
      ⟨[], fun _ _ => ⟨none, 200, ⟨none, none, none, none⟩, str ""⟩,
       false, none, false, []⟩ (str "hello")

theorem refreshStage_refresh_mem (w : XPlat.World) (t : XPlat.Token)
    (evs : List XPlat.Ev) (rt : PyStr) (hrt : t.refresh_token = some rt) :
    XPlat.Ev.refreshCall ∈ (XPlat.refreshStage w t evs).2.2 := by
  by_cases hr : w.refreshRaises = true
  · simp only [XPlat.refreshStage, XPlat.pkcePart, hrt, hr, if_true]
    cases w.pkceTok <;> simp
  · simp only [Bool.not_eq_true] at hr
    rcases hres : XPlat.refresh_token w rt with _ | nt
    · simp only [XPlat.refreshStage, XPlat.pkcePart, hrt, hr, hres, Bool.false_eq_true,
        if_false]
      cases w.pkceTok <;> simp
    · simp [XPlat.refreshStage, hrt, hr, hres]

theorem refreshStage_pkce_mem (w : XPlat.World) (t : XPlat.Token)
    (evs : List XPlat.Ev)
    (h : t.refresh_token = none ∨ w.refreshRaises = true ∨ w.refreshStatus ≠ 200) :
    XPlat.Ev.pkce ∈ (XPlat.refreshStage w t evs).2.2 := by
  rcases hrt : t.refresh_token with _ | rt
  · simp only [XPlat.refreshStage, XPlat.pkcePart, hrt]
    cases w.pkceTok <;> simp
  · rcases h with h | h | h
    · rw [hrt] at h; cases h
    · simp only [XPlat.refreshStage, XPlat.pkcePart, hrt, h, if_true]
      cases w.pkceTok <;> simp
    · have hb : (w.refreshStatus == 200) = false := by simpa using h
      by_cases hr : w.refreshRaises = true
      · simp only [XPlat.refreshStage, XPlat.pkcePart, hrt, hr, if_true]
        cases w.pkceTok <;> simp
      · simp only [Bool.not_eq_true] at hr
        simp only [XPlat.refreshStage, XPlat.pkcePart, XPlat.refresh_token, hrt, hr,
          hb, Bool.false_eq_true, if_false]
        cases w.pkceTok <;> simp

theorem session_eq_refreshStage (w : XPlat.World) (t : XPlat.Token)
    (htf : w.tokenFile = .stored t)
    (hcid : pyTruthy (lookupEnv w.env (str "X_CLIENT_ID")) = true)
    (hcsec : pyTruthy (lookupEnv w.env (str "X_CLIENT_SECRET")) = true)
    (hexp : ¬(t.expires_at.getD 0 > w.now + 60)) :
    XPlat.get_authenticated_session w = XPlat.refreshStage w t [] := by
  simp [XPlat.get_authenticated_session, XPlat.load_token, XPlat.validBranch,
    htf, hcid, hcsec, hexp]

theorem session_trace_no_publish (w : XPlat.World) (txt : PyStr) :
    XPlat.Ev.publish txt ∉ (XPlat.get_authenticated_session w).2.2 := by
  rw [XPlat.get_authenticated_session]
  unfold XPlat.validBranch XPlat.refreshStage XPlat.pkcePart XPlat.load_token
  repeat' split
  all_goals simp_all

theorem session_prefix_post (w : XPlat.World) (content : PyStr) :
    (XPlat.get_authenticated_session w).2.2 <+: (XPlat.post w content).2.2 := by
  rw [XPlat.post]
  rcases h : (XPlat.get_authenticated_session w).1 with e | o
  · simp
  · cases o with
    | none => simp
    | some t =>
      repeat' split
      all_goals simp

/-- Concrete microblog world: stored token far from expiry with a refresh
value, probe rejected with 401, refresh endpoint healthy. -/
def c5World : XPlat.World :=
  { env := [(str "X_CLIENT_ID", str "cid"), (str "X_CLIENT_SECRET", str "cs")]
    tokenFile := .stored ⟨str "at", some 10000, some (str "rt")⟩
    now := 0
    probeRaises := false
    probeStatus := 401
    refreshRaises := false
    refreshStatus := 200
    refreshTok := ⟨str "newat", some 20000, some (str "newrt")⟩
    pkceTok := none
    publishRaises := none
    publishStatus := 201
    publishTweetId := none
    publishDetail := none }

/-- C5 counterexample: a stored token whose expiry instant (10000) is far more
than 60 seconds past the clock (0) is nonetheless refreshed — the adapter
probes `users/me` first and, on a non-200 probe, falls through to the refresh
call — refuting the claim that such a token is used as-is with no refresh
call. -/
theorem c5_counterexample :
    c5World.tokenFile = XPlat.TokenFile.stored ⟨str "at", some 10000, some (str "rt")⟩ ∧
    (10000 : Nat) > c5World.now + 60 ∧
    XPlat.Ev.refreshCall ∈ (XPlat.get_authenticated_session c5World).2.2 := by
  exact ⟨rfl, by decide, by decide⟩

/-- C5 (amended): a stored token with expiry more than 60 seconds in the
future is tried as-is — and used with no refresh call provided the validity
probe succeeds; a stored token with past or absent expiry and a refresh value
triggers a refresh attempt, which (session acquisition being a prefix of the
publish run that contains no publish event) happens before any publish call;
and when the refresh value is absent or the refresh fails, the adapter falls
through to the interactive PKCE flow. -/
theorem c5_token_validity_amended :
    (∀ (w : XPlat.World) (t : XPlat.Token),
      w.tokenFile = .stored t →
      pyTruthy (lookupEnv w.env (str "X_CLIENT_ID")) = true →
      pyTruthy (lookupEnv w.env (str "X_CLIENT_SECRET")) = true →
      t.expires_at.getD 0 > w.now + 60 →
      w.probeRaises = false →
      w.probeStatus = 200 →
      (XPlat.get_authenticated_session w).1 = .ok (some t) ∧
      (XPlat.get_authenticated_session w).2.2 = [XPlat.Ev.probe]) ∧
    (∀ (w : XPlat.World) (t : XPlat.Token) (rt : PyStr),
      w.tokenFile = .stored t →
      pyTruthy (lookupEnv w.env (str "X_CLIENT_ID")) = true →
      pyTruthy (lookupEnv w.env (str "X_CLIENT_SECRET")) = true →
      ¬(t.expires_at.getD 0 > w.now + 60) →
      t.refresh_token = some rt →
      XPlat.Ev.refreshCall ∈ (XPlat.get_authenticated_session w).2.2 ∧
      (∀ content, (XPlat.get_authenticated_session w).2.2 <+: (XPlat.post w content).2.2) ∧
      (∀ txt, XPlat.Ev.publish txt ∉ (XPlat.get_authenticated_session w).2.2)) ∧
    (∀ (w : XPlat.World) (t : XPlat.Token),
      w.tokenFile = .stored t →
      pyTruthy (lookupEnv w.env (str "X_CLIENT_ID")) = true →
      pyTruthy (lookupEnv w.env (str "X_CLIENT_SECRET")) = true →
      ¬(t.expires_at.getD 0 > w.now + 60) →
      (t.refresh_token = none ∨ w.refreshRaises = true ∨ w.refreshStatus ≠ 200) →
      XPlat.Ev.pkce ∈ (XPlat.get_authenticated_session w).2.2) := by
  refine ⟨?_, ?_, ?_⟩
  · intro w t htf hcid hcsec hexp hpr hps
    constructor <;>
      simp [XPlat.get_authenticated_session, XPlat.load_token, XPlat.validBranch,
        htf, hcid, hcsec, hexp, hpr, hps]
  · intro w t rt htf hcid hcsec hexp hrt
    refine ⟨?_, fun content => session_prefix_post w content,
            fun txt => session_trace_no_publish w txt⟩
    rw [session_eq_refreshStage w t htf hcid hcsec hexp]
    exact refreshStage_refresh_mem w t [] rt hrt
  · intro w t htf hcid hcsec hexp hfail
    rw [session_eq_refreshStage w t htf hcid hcsec hexp]
    exact refreshStage_pkce_mem w t [] hfail

theorem c5_token_validity_amended_witness :
    ((XPlat.get_authenticated_session { c5World with probeStatus := 200 }).1 =
        .ok (some ⟨str "at", some 10000, some (str "rt")⟩) ∧
      (XPlat.get_authenticated_session { c5World with probeStatus := 200 }).2.2 =
        [XPlat.Ev.probe]) ∧
    XPlat.Ev.refreshCall ∈
      (XPlat.get_authenticated_session { c5World with now := 100000 }).2.2 ∧
    XPlat.Ev.pkce ∈
      (XPlat.get_authenticated_session
        { c5World with now := 100000, refreshStatus := 503 }).2.2 := by
  refine ⟨?_, ?_, ?_⟩
  · exact c5_token_validity_amended.1 { c5World with probeStatus := 200 }
      ⟨str "at", some 10000, some (str "rt")⟩ rfl (by decide) (by decide)
      (by decide) rfl rfl
  · exact (c5_token_validity_amended.2.1 { c5World with now := 100000 }
      ⟨str "at", some 10000, some (str "rt")⟩ (str "rt") rfl (by decide) (by decide)
      (by decide) rfl).1
  · exact c5_token_validity_amended.2.2
      { c5World with now := 100000, refreshStatus := 503 }
      ⟨str "at", some 10000, some (str "rt")⟩ rfl (by decide) (by decide)
      (by decide) (Or.inr (Or.inr (by decide)))

/-! ## Professional-network adapter token load: `src/platforms/linkedin.py` -/

namespace LinkedIn

/-- Token bundle held by `LinkedInOAuth`: an access value and an optional
refresh value. -/
structure Token where
  access_token : PyStr
  refresh_token : Option PyStr
deriving DecidableEq

/-- Python `repr` of the token dictionary, as printed by
`print(f'token: {token}')` (insertion order: access value first). -/
def tokenRepr (t : Token) : PyStr :=
  str "\x7b'access_token': '" ++ t.access_token ++ str "'" ++
    (match t.refresh_token with
     | some r => str ", 'refresh_token': '" ++ r ++ str "'"
     | none => []) ++ str "\x7d"

/-- Embedding of `LinkedInOAuth._load_token`: reads the two credential names
from the environment, prints both in plaintext, and builds the token when the
access value is truthy (adding the refresh value when it is truthy). Returns
the token together with the lines written to standard output. -/
def load_token (env : EnvMap) : Option Token × List PyStr :=
  let a := lookupEnv env (str "LINKEDIN_ACCESS_TOKEN")
  let r := lookupEnv env (str "LINKEDIN_REFRESH_TOKEN")
  let lines := [str "access_token: " ++ pyShowOpt a,
                str "refresh_token: " ++ pyShowOpt r]
  if pyTruthy a then
    let t : Token := ⟨a.getD [], if pyTruthy r then some (r.getD []) else none⟩
    (some t, lines ++ [str "token: " ++ tokenRepr t])
  else (none, lines)

/-- Provider-side oracles of the professional-network adapter, indexed by call
count: refresh-exchange outcomes (`none` when the exchange raises or returns a
non-2xx status), publish statuses, and interactive-authorization outcomes. -/
structure World where
  refreshResp : Nat → Option Token
  publishStatus : Nat → Nat
  authTok : Nat → Option Token

/-- Mutable state: the process environment, the module-singleton helper's
token, and the per-oracle call counters. -/
structure St where
  env : EnvMap
  token : Option Token
  rCnt : Nat
  pCnt : Nat
  aCnt : Nat

/-- Observable steps of the professional-network adapter. -/
inductive Ev where
  | out (line : PyStr)
  | refreshCall
  | interactive
  | publishCall (author : PyStr) (status : Nat)
deriving DecidableEq

/-- Embedding of `LinkedInOAuth.refresh_token` as its callers observe it
through their `try` blocks: `false` means the method raised (no token, no
refresh value, or a failed exchange). On success the response token supersedes
the old one and both values are saved to the environment. -/
def refresh_tok (w : World) (st : St) : Bool × St × List Ev :=
  match st.token with
  | none => (false, st, [])
  | some t =>
    match t.refresh_token with
    | none => (false, st, [])
    | some _ =>
      let resp := w.refreshResp st.rCnt
      let st1 : St := { st with rCnt := st.rCnt + 1 }
      match resp with
      | none => (false, st1, [Ev.refreshCall])
      | some nt =>
        let env1 := updateEnv st1.env (str "LINKEDIN_ACCESS_TOKEN") nt.access_token
        let env2 :=
          match nt.refresh_token with
          | some r => updateEnv env1 (str "LINKEDIN_REFRESH_TOKEN") r
          | none => env1
        (true, { st1 with token := some nt, env := env2 }, [Ev.refreshCall])

/-- Python rendering of the optional token dictionary in
`print(f'LinkedIn token: {self.token}')`. -/
def tokenShow (t : Option Token) : PyStr :=
  match t with
  | none => str "None"
  | some t => tokenRepr t

/-- Embedding of `LinkedInOAuth.get_session` as observed through
`get_authenticated_session`: prints the token, refreshes proactively whenever
a refresh value is present (clearing the token when that fails), falls back to
the interactive `authenticate()` flow, and returns the session's token
(`none` when authentication failed and the raised error was caught). -/
def get_session (w : World) (st : St) : Option Token × St × List Ev :=
  let pline := Ev.out (str "LinkedIn token: " ++ tokenShow st.token)
  let afterRefresh : St × List Ev :=
    match st.token with
    | some t =>
      match t.refresh_token with
      | some _ =>
        let r := refresh_tok w st
        if r.1 then (r.2.1, r.2.2)
        else ({ r.2.1 with token := none }, r.2.2)
      | none => (st, [])
    | none => (st, [])
  let st1 := afterRefresh.1
  match st1.token with
  | some t => (some t, st1, pline :: afterRefresh.2)
  | none =>
    let a := w.authTok st1.aCnt
    let st2 : St := { st1 with aCnt := st1.aCnt + 1 }
    match a with
    | some t =>
      let env1 := updateEnv st2.env (str "LINKEDIN_ACCESS_TOKEN") t.access_token
      let env2 :=
        match t.refresh_token with
        | some r => updateEnv env1 (str "LINKEDIN_REFRESH_TOKEN") r
        | none => env1
      (some t, { st2 with token := some t, env := env2 },
       pline :: afterRefresh.2 ++ [Ev.interactive])
    | none => (none, st2, pline :: afterRefresh.2 ++ [Ev.interactive])

/-- Author-identity resolution in `post`: prefer the organization identifier
and fall back to the personal identifier, normalizing either to a full URN;
`none` is the configuration-error case when neither is set. -/
def resolveAuthor (env : EnvMap) : Option PyStr :=
  let org := lookupEnv env (str "LINKEDIN_ORGANIZATION_URN")
  if pyTruthy org then
    let o := org.getD []
    some (if (str "urn:li:organization:").isPrefixOf o then o
          else str "urn:li:organization:" ++ o)
  else
    let person := lookupEnv env (str "LINKEDIN_AUTHOR_URN")
    if pyTruthy person then
      let p := person.getD []
      some (if (str "urn:li:person:").isPrefixOf p then p
            else str "urn:li:person:" ++ p)
    else none

/-- The configuration-error message of `post`. -/
def configMsg : PyStr :=
  str "Set LINKEDIN_ORGANIZATION_URN or LINKEDIN_AUTHOR_URN in your environment."

/-- Message of the `except HTTPError` handler, `f"API error: {str(e)}"`, with
the library's exception text abstracted to the status code. -/
def apiErr (status : Nat) : PyStr := str "API error: status " ++ (Nat.repr status).data

/-- Result of one `post` invocation; `.diverged` marks exhaustion of the
recursion fuel (the call still self-recursing after that many levels). -/
inductive Outcome where
  | result (ok : Bool) (msg : PyStr)
  | diverged
deriving DecidableEq

/-- Embedding of `post`, fuel-indexed because the source retries via
self-recursion on a 401 after a successful reactive refresh, with no explicit
bound: a status under 400 succeeds (`raise_for_status` passes), a 401 refreshes
and recurses, any other error status is terminal, and every raise is caught
and converted to a result. -/
def post : Nat → World → St → PyStr → Outcome × St × List Ev
  | 0, _, st, _ => (.diverged, st, [])
  | fuel + 1, w, st, content =>
    let s := get_session w st
    match s.1 with
    | none =>
      (.result false (str "Not authenticated. Please run authenticate() first."),
       s.2.1, s.2.2)
    | some _ =>
      match resolveAuthor s.2.1.env with
      | none => (.result false configMsg, s.2.1, s.2.2)
      | some author =>
        let status := w.publishStatus s.2.1.pCnt
        let st2 : St := { s.2.1 with pCnt := s.2.1.pCnt + 1 }
        let evs := s.2.2 ++ [Ev.publishCall author status]
        if status < 400 then (.result true (str "Post successful."), st2, evs)
        else if status == 401 then
          let r := refresh_tok w st2
          if r.1 then
            let pr := post fuel w r.2.1 content
            (pr.1, pr.2.1, evs ++ r.2.2 ++ pr.2.2)
          else (.result false (apiErr status), r.2.1, evs ++ r.2.2)
        else (.result false (apiErr status), st2, evs)

end LinkedIn

/-- Count of refresh-exchange calls in a professional-network adapter trace. -/
def countRefresh (evs : List LinkedIn.Ev) : Nat :=
  evs.countP (fun e => e == LinkedIn.Ev.refreshCall)

/-- Provider that rejects every publish with 401 while every refresh exchange
succeeds with a fresh refresh-capable token; interactive authorization is
never reached. -/
def c1World : LinkedIn.World :=
  { refreshResp := fun _ => some ⟨str "newat", some (str "newrt")⟩
    publishStatus := fun _ => 401
    authTok := fun _ => none }

theorem lookup_save_keys (e : EnvMap) (a r k : PyStr)
    (h1 : str "LINKEDIN_ACCESS_TOKEN" ≠ k) (h2 : str "LINKEDIN_REFRESH_TOKEN" ≠ k) :
    lookupEnv (updateEnv (updateEnv e (str "LINKEDIN_ACCESS_TOKEN") a)
        (str "LINKEDIN_REFRESH_TOKEN") r) k = lookupEnv e k := by
  rw [lookupEnv_updateEnv_other _ _ _ _ h2, lookupEnv_updateEnv_other _ _ _ _ h1]

theorem c1_refresh_tok (st : LinkedIn.St) (t : LinkedIn.Token) (rt : PyStr)
    (h1 : st.token = some t) (h2 : t.refresh_token = some rt) :
    LinkedIn.refresh_tok c1World st =
      (true,
       { st with rCnt := st.rCnt + 1,
                 token := some ⟨str "newat", some (str "newrt")⟩,
                 env := updateEnv
                   (updateEnv st.env (str "LINKEDIN_ACCESS_TOKEN") (str "newat"))
                   (str "LINKEDIN_REFRESH_TOKEN") (str "newrt") },
       [LinkedIn.Ev.refreshCall]) := by
  simp [LinkedIn.refresh_tok, h1, h2, c1World]

theorem c1_get_session (st : LinkedIn.St) (t : LinkedIn.Token) (rt : PyStr)
    (h1 : st.token = some t) (h2 : t.refresh_token = some rt) :
    LinkedIn.get_session c1World st =
      (some ⟨str "newat", some (str "newrt")⟩,
       { st with rCnt := st.rCnt + 1,
                 token := some ⟨str "newat", some (str "newrt")⟩,
                 env := updateEnv
                   (updateEnv st.env (str "LINKEDIN_ACCESS_TOKEN") (str "newat"))
                   (str "LINKEDIN_REFRESH_TOKEN") (str "newrt") },
       [LinkedIn.Ev.out (str "LinkedIn token: " ++ LinkedIn.tokenShow (some t)),
        LinkedIn.Ev.refreshCall]) := by
  simp [LinkedIn.get_session, h1, h2, c1_refresh_tok st t rt h1 h2]

theorem c1_linkedin_step (n : Nat) (st : LinkedIn.St) (t : LinkedIn.Token) (rt : PyStr)
    (h1 : st.token = some t) (h2 : t.refresh_token = some rt)
    (h3 : lookupEnv st.env (str "LINKEDIN_ORGANIZATION_URN") = none)
    (h4 : lookupEnv st.env (str "LINKEDIN_AUTHOR_URN") = some (str "urn:li:person:me")) :
    ∃ st' : LinkedIn.St,
      (LinkedIn.post (n + 1) c1World st (str "msg")).1 =
        (LinkedIn.post n c1World st' (str "msg")).1 ∧
      countRefresh (LinkedIn.post (n + 1) c1World st (str "msg")).2.2 =
        2 + countRefresh (LinkedIn.post n c1World st' (str "msg")).2.2 ∧
      st'.token = some ⟨str "newat", some (str "newrt")⟩ ∧
      lookupEnv st'.env (str "LINKEDIN_ORGANIZATION_URN") = none ∧
      lookupEnv st'.env (str "LINKEDIN_AUTHOR_URN") = some (str "urn:li:person:me") := by
  have hsess := c1_get_session st t rt h1 h2
  have hA_org : lookupEnv
      (updateEnv (updateEnv st.env (str "LINKEDIN_ACCESS_TOKEN") (str "newat"))
        (str "LINKEDIN_REFRESH_TOKEN") (str "newrt"))
      (str "LINKEDIN_ORGANIZATION_URN") = none := by
    rw [lookup_save_keys _ _ _ _ (by decide) (by decide), h3]
  have hA_auth : lookupEnv
      (updateEnv (updateEnv st.env (str "LINKEDIN_ACCESS_TOKEN") (str "newat"))
        (str "LINKEDIN_REFRESH_TOKEN") (str "newrt"))
      (str "LINKEDIN_AUTHOR_URN") = some (str "urn:li:person:me") := by
    rw [lookup_save_keys _ _ _ _ (by decide) (by decide), h4]
  have hpre : (str "urn:li:person:").isPrefixOf (str "urn:li:person:me") = true := by decide
  have hresolve : LinkedIn.resolveAuthor
      (updateEnv (updateEnv st.env (str "LINKEDIN_ACCESS_TOKEN") (str "newat"))
        (str "LINKEDIN_REFRESH_TOKEN") (str "newrt")) = some (str "urn:li:person:me") := by
    simp only [LinkedIn.resolveAuthor, hA_org, hA_auth]
    simp [pyTruthy, hpre]
    decide
  have hreact := c1_refresh_tok
    { env := updateEnv (updateEnv st.env (str "LINKEDIN_ACCESS_TOKEN") (str "newat"))
        (str "LINKEDIN_REFRESH_TOKEN") (str "newrt"),
      token := some ⟨str "newat", some (str "newrt")⟩,
      rCnt := st.rCnt + 1, pCnt := st.pCnt + 1, aCnt := st.aCnt }
    ⟨str "newat", some (str "newrt")⟩ (str "newrt") rfl rfl
  have hpub : c1World.publishStatus = fun _ => 401 := rfl
  have h400 : ¬(401 < 400) := by decide
  have h401 : ((401 : Nat) == 401) = true := by decide
  refine ⟨{ env := updateEnv (updateEnv
              (updateEnv (updateEnv st.env (str "LINKEDIN_ACCESS_TOKEN") (str "newat"))
                (str "LINKEDIN_REFRESH_TOKEN") (str "newrt"))
              (str "LINKEDIN_ACCESS_TOKEN") (str "newat"))
              (str "LINKEDIN_REFRESH_TOKEN") (str "newrt"),
            token := some ⟨str "newat", some (str "newrt")⟩,
            rCnt := st.rCnt + 1 + 1, pCnt := st.pCnt + 1, aCnt := st.aCnt },
          ?_, ?_, rfl, ?_, ?_⟩
  · simp only [LinkedIn.post, hsess, hresolve, hpub, hreact, h400, h401, if_true,
      if_false]
    try simp [hreact]
  · simp only [LinkedIn.post, hsess, hresolve, hpub, hreact]
    simp [hreact, h400, countRefresh, List.countP_cons, List.countP_append]
    omega
  · rw [lookup_save_keys _ _ _ _ (by decide) (by decide)]
    exact hA_org
  · rw [lookup_save_keys _ _ _ _ (by decide) (by decide)]
    exact hA_auth

/-- C1: under a provider that always returns an auth-rejection, the feed-style
adapter refreshes exactly once, retries exactly once and terminates with a
failure result; but the professional-network adapter retries through unbounded
self-recursion — for every fuel bound `n` the call is still self-recursing
after `n` levels, having made `2 n` refresh calls (one proactive and one
reactive per level) — so the claim's one-refresh bound does not hold for every
adapter. -/
theorem c1_auth_retry_bound :
    (∀ (n : Nat) (st : LinkedIn.St) (t : LinkedIn.Token) (rt : PyStr),
      st.token = some t → t.refresh_token = some rt →
      lookupEnv st.env (str "LINKEDIN_ORGANIZATION_URN") = none →
      lookupEnv st.env (str "LINKEDIN_AUTHOR_URN") = some (str "urn:li:person:me") →
      (LinkedIn.post n c1World st (str "msg")).1 = .diverged ∧
      countRefresh (LinkedIn.post n c1World st (str "msg")).2.2 = 2 * n) ∧
    (∀ (w : Facebook.World) (content : PyStr),
      pyTruthy (lookupEnv w.env (str "FACEBOOK_PAGE_ID")) = true →
      pyTruthy (lookupEnv w.env (str "FACEBOOK_ACCESS_TOKEN")) = true →
      (∀ tok, (w.feed content tok).raises = none) →
      (∀ tok, ((w.feed content tok).status == 200) = false) →
      (∀ tok, Facebook.should_refresh_token (w.feed content tok).err = true) →
      (Facebook.refresh_facebook_page_token w
        ((lookupEnv w.env (str "FACEBOOK_PAGE_ID")).getD [])).1.isSome = true →
      (∃ msg, (Facebook.post w content).1 = .ok (false, msg)) ∧
      (Facebook.post w content).2.2.countP
        (fun e => e == Facebook.Ev.refreshChain) = 1 ∧
      (Facebook.post w content).2.2.countP
        (fun e => match e with | Facebook.Ev.feedCall _ => true | _ => false) = 2) := by
  constructor
  · intro n
    induction n with
    | zero =>
      intro st t rt h1 h2 h3 h4
      exact ⟨rfl, rfl⟩
    | succ n ih =>
      intro st t rt h1 h2 h3 h4
      obtain ⟨st', he1, he2, ht', ho', ha'⟩ := c1_linkedin_step n st t rt h1 h2 h3 h4
      have hrec := ih st' ⟨str "newat", some (str "newrt")⟩ (str "newrt") ht' rfl ho' ha'
      refine ⟨?_, ?_⟩
      · rw [he1, hrec.1]
      · rw [he2, hrec.2]
        omega
  · intro w content hpid htok hraise hstat hcls hrc
    obtain ⟨nt, hnt⟩ := Option.isSome_iff_exists.mp hrc
    have hb1 : (!(pyTruthy (lookupEnv w.env (str "FACEBOOK_PAGE_ID"))) ||
        !(pyTruthy (lookupEnv w.env (str "FACEBOOK_ACCESS_TOKEN")))) = false := by
      rw [hpid, htok]
      rfl
    simp only [Facebook.post, hb1, Bool.false_eq_true, if_false,
      hraise, hstat, hcls, hnt, if_true]
    refine ⟨⟨_, rfl⟩, ?_, ?_⟩ <;> simp [List.countP_cons]

/-- Concrete professional-network state for the always-401 scenario. -/
def c1St : LinkedIn.St :=
  { env := [(str "LINKEDIN_AUTHOR_URN", str "urn:li:person:me")],
    token := some ⟨str "at", some (str "rt")⟩, rCnt := 0, pCnt := 0, aCnt := 0 }

/-- Concrete feed-style world whose provider always rejects with code 190 and
whose refresh chain succeeds. -/
def c1Fb : Facebook.World :=
  { env := [(str "FACEBOOK_PAGE_ID", str "p"), (str "FACEBOOK_ACCESS_TOKEN", str "t0"),
            (str "FACEBOOK_APP_ID", str "app"), (str "FACEBOOK_APP_SECRET", str "sec"),
            (str "FACEBOOK_USER_ACCESS_TOKEN", str "ut")],
    feed := fun _ _ => ⟨none, 400, ⟨some 190, none, none, none⟩, str "body"⟩,
    exchangeRaises := false, exchangeTok := some (str "llt"),
    accountsRaises := false, accounts := [(str "p", some (str "pt"))] }

theorem c1_auth_retry_bound_witness :
    ((LinkedIn.post 2 c1World c1St (str "msg")).1 = .diverged ∧
     countRefresh (LinkedIn.post 2 c1World c1St (str "msg")).2.2 = 2 * 2) ∧
    ((∃ msg, (Facebook.post c1Fb (str "hi")).1 = .ok (false, msg)) ∧
     (Facebook.post c1Fb (str "hi")).2.2.countP
       (fun e => e == Facebook.Ev.refreshChain) = 1 ∧
     (Facebook.post c1Fb (str "hi")).2.2.countP
       (fun e => match e with | Facebook.Ev.feedCall _ => true | _ => false) = 2) := by
  constructor
  · exact c1_auth_retry_bound.1 2 c1St ⟨str "at", some (str "rt")⟩ (str "rt")
      rfl rfl (by decide) (by decide)
  · exact c1_auth_retry_bound.2 c1Fb (str "hi") (by decide) (by decide)
      (fun _ => rfl) (fun _ => rfl) (fun _ => rfl) (by decide)

theorem get_session_no_publish (w : LinkedIn.World) (st : LinkedIn.St)
    (a : PyStr) (s : Nat) :
    LinkedIn.Ev.publishCall a s ∉ (LinkedIn.get_session w st).2.2 := by
  unfold LinkedIn.get_session LinkedIn.refresh_tok
  rcases hrr : w.refreshResp st.rCnt with _ | nt <;>
    simp only [hrr] <;>
    (repeat' split) <;>
    simp_all

/-- Provider used only for the both-URNs counterexample: publish succeeds. -/
def c6W : LinkedIn.World :=
  { refreshResp := fun _ => none, publishStatus := fun _ => 201, authTok := fun _ => none }

/-- State with BOTH the organization and the personal identifier configured
and a token without a refresh value. -/
def c6St1 : LinkedIn.St :=
  { env := [(str "LINKEDIN_ORGANIZATION_URN", str "123"),
            (str "LINKEDIN_AUTHOR_URN", str "urn:li:person:me")],
    token := some ⟨str "at", none⟩, rCnt := 0, pCnt := 0, aCnt := 0 }

/-- Provider and state for the neither-URN case: the stored token has a
refresh value and the proactive refresh succeeds over the network. -/
def c6W2 : LinkedIn.World :=
  { refreshResp := fun _ => some ⟨str "newat", some (str "newrt")⟩,
    publishStatus := fun _ => 0, authTok := fun _ => none }

/-- State with neither author identifier configured. -/
def c6St2 : LinkedIn.St :=
  { env := [], token := some ⟨str "at", some (str "rt")⟩, rCnt := 0, pCnt := 0, aCnt := 0 }

/-- C6 counterexample: with BOTH identifiers configured the call does not fail
with a configuration error — it publishes as the organization — and with
neither configured the configuration error is raised only after the proactive
refresh network call, so "exactly one must be configured" and "before any
network call" are both false of the code. -/
theorem c6_counterexample :
    (LinkedIn.post 1 c6W c6St1 (str "m")).1 = .result true (str "Post successful.") ∧
    LinkedIn.Ev.publishCall (str "urn:li:organization:123") 201 ∈
      (LinkedIn.post 1 c6W c6St1 (str "m")).2.2 ∧
    (LinkedIn.post 1 c6W2 c6St2 (str "m")).1 = .result false LinkedIn.configMsg ∧
    LinkedIn.Ev.refreshCall ∈ (LinkedIn.post 1 c6W2 c6St2 (str "m")).2.2 := by
  exact ⟨by decide, by decide, by decide, by decide⟩

/-- C6 (amended): publish resolves the author identity by preferring the
organization identifier and falling back to the personal identifier (when both
are configured the organization wins); when neither is configured the call
fails with a configuration error before the publish network call — though
after session acquisition, which may itself perform a refresh network call. -/
theorem c6_author_resolution_amended :
    (∀ env : EnvMap,
      (pyTruthy (lookupEnv env (str "LINKEDIN_ORGANIZATION_URN")) = true →
        LinkedIn.resolveAuthor env =
          some (if (str "urn:li:organization:").isPrefixOf
                  ((lookupEnv env (str "LINKEDIN_ORGANIZATION_URN")).getD [])
                then (lookupEnv env (str "LINKEDIN_ORGANIZATION_URN")).getD []
                else str "urn:li:organization:" ++
                  (lookupEnv env (str "LINKEDIN_ORGANIZATION_URN")).getD [])) ∧
      (pyTruthy (lookupEnv env (str "LINKEDIN_ORGANIZATION_URN")) = false →
        pyTruthy (lookupEnv env (str "LINKEDIN_AUTHOR_URN")) = true →
        LinkedIn.resolveAuthor env =
          some (if (str "urn:li:person:").isPrefixOf
                  ((lookupEnv env (str "LINKEDIN_AUTHOR_URN")).getD [])
                then (lookupEnv env (str "LINKEDIN_AUTHOR_URN")).getD []
                else str "urn:li:person:" ++
                  (lookupEnv env (str "LINKEDIN_AUTHOR_URN")).getD [])) ∧
      (pyTruthy (lookupEnv env (str "LINKEDIN_ORGANIZATION_URN")) = false →
        pyTruthy (lookupEnv env (str "LINKEDIN_AUTHOR_URN")) = false →
        LinkedIn.resolveAuthor env = none)) ∧
    (∀ (fuel : Nat) (w : LinkedIn.World) (st : LinkedIn.St) (content : PyStr)
       (tk : LinkedIn.Token),
      (LinkedIn.get_session w st).1 = some tk →
      LinkedIn.resolveAuthor (LinkedIn.get_session w st).2.1.env = none →
      (LinkedIn.post (fuel + 1) w st content).1 = .result false LinkedIn.configMsg ∧
      ∀ a s, LinkedIn.Ev.publishCall a s ∉ (LinkedIn.post (fuel + 1) w st content).2.2) := by
  constructor
  · intro env
    refine ⟨fun h => ?_, fun h1 h2 => ?_, fun h1 h2 => ?_⟩
    · simp [LinkedIn.resolveAuthor, h]
    · simp [LinkedIn.resolveAuthor, h1, h2]
    · simp [LinkedIn.resolveAuthor, h1, h2]
  · intro fuel w st content tk hsk hres
    constructor
    · simp only [LinkedIn.post, hsk, hres]
    · intro a s
      simp only [LinkedIn.post, hsk, hres]
      exact get_session_no_publish w st a s

theorem c6_author_resolution_amended_witness :
    LinkedIn.resolveAuthor c6St1.env = some (str "urn:li:organization:123") ∧
    (LinkedIn.post 1 c6W2 c6St2 (str "hi")).1 = .result false LinkedIn.configMsg := by
  constructor
  · have h := (c6_author_resolution_amended.1 c6St1.env).1 (by decide)
    simpa using h
  · exact ((c6_author_resolution_amended.2 0 c6W2 c6St2 (str "hi")
      ⟨str "newat", some (str "newrt")⟩ (by decide) (by decide))).1

/-! ## Message composer: `compose_social_message` in `src/crypto_trend_workflow.py` -/

namespace Workflow

/-- The static hashtag pool. -/
def HASHTAGS : List PyStr :=
  [str "#Crypto", str "#Blockchain", str "#Web3", str "#DeFi", str "#Bitcoin",
   str "#Ethereum", str "#Altcoins", str "#NFT", str "#AI", str "#FinTech",
   str "#CryptoNews", str "#OnChain", str "#Layer2", str "#SmartContracts",
   str "#Stablecoins", str "#YieldFarming", str "#Tokenization", str "#Web3Gaming",
   str "#Airdrop", str "#CryptoMarkets"]

/-- The title/summary scanning loop of `compose_social_message`: the first
`# `-heading is the title (its leading `#` and space characters stripped), the
first blockquote line is the summary, and the loop breaks once both are set. -/
def parseLoop : List PyStr → PyStr → PyStr → PyStr × PyStr
  | [], t, s => (t, s)
  | line :: rest, t, s =>
    if t.isEmpty && (str "# ").isPrefixOf line then
      parseLoop rest (pyStrip (line.dropWhile (fun c => c == '#' || c == ' '))) s
    else
      let s' :=
        if s.isEmpty && (str "> ").isPrefixOf (pyLStrip line) then
          pyStrip ((pyLStrip line).drop 2)
        else s
      if !t.isEmpty && !s'.isEmpty then (t, s')
      else parseLoop rest t s'

/-- Summary fallback: the first nonblank line that is neither a heading nor an
image, stripped; else the generic placeholder. -/
def fallbackSummary (md : PyStr) : PyStr :=
  let lines := (splitLines md).filter (fun l => !(pyStrip l).isEmpty)
  let s :=
    match lines.find? (fun l => !(str "#").isPrefixOf l && !(str "![").isPrefixOf l) with
    | some l => pyStrip l
    | none => []
  if s.isEmpty then str "Read the latest insights." else s

/-- Embedding of `compose_social_message`; `sample` stands for the value of
`random.sample(HASHTAGS, k=min(3, len(HASHTAGS)))`, which the random library
guarantees to be a 3-element draw without replacement from the pool. -/
def compose_social_message (topic url : PyStr) (sample : List PyStr) : PyStr :=
  let md := topic
  let ts := parseLoop (splitLines md) [] []
  let title := if ts.1.isEmpty then str "New Article" else ts.1
  let summary := if ts.2.isEmpty then fallbackSummary md else ts.2
  let snippet := pyRStrip (summary.take 60) ++
    (if 60 < summary.length then str "…" else [])
  let base := pyStrip (title ++ str " — " ++ snippet ++ str " " ++ url)
  base ++ '\n' :: joinSpace sample

end Workflow

theorem length_dropWhile_le (p : Char → Bool) (l : PyStr) :
    (l.dropWhile p).length ≤ l.length := by
  induction l with
  | nil => simp
  | cons c t ih =>
    rw [List.dropWhile_cons]
    by_cases h : p c = true
    · rw [if_pos h]
      exact Nat.le_succ_of_le ih
    · rw [if_neg h]

theorem head_fails_of_dropWhile_self {p : Char → Bool} {c : Char} {t : PyStr}
    (h : (c :: t).dropWhile p = c :: t) : p c = false := by
  by_cases hc : p c = true
  · rw [List.dropWhile_cons, if_pos hc] at h
    have h1 := length_dropWhile_le p t
    have h2 := congrArg List.length h
    simp at h2
    omega
  · simpa using hc

theorem pyLStrip_append_left (title Y : PyStr) (h0 : title ≠ [])
    (h1 : pyLStrip title = title) : pyLStrip (title ++ Y) = title ++ Y := by
  rcases ht : title with _ | ⟨c, t⟩
  · exact absurd ht h0
  · rw [ht] at h1
    have hc : pyIsSpace c = false := head_fails_of_dropWhile_self h1
    rw [List.cons_append, pyLStrip, List.dropWhile_cons, if_neg (by simp [hc])]

theorem pyRStrip_append_right (Y url : PyStr) (h0 : url ≠ [])
    (h1 : pyRStrip url = url) : pyRStrip (Y ++ url) = Y ++ url := by
  have h1' : url.reverse.dropWhile pyIsSpace = url.reverse := by
    have h2 := congrArg List.reverse h1
    rw [pyRStrip, List.reverse_reverse] at h2
    exact h2
  rcases hr : url.reverse with _ | ⟨c, u⟩
  · exact absurd (by simpa using congrArg List.reverse hr) h0
  · rw [hr] at h1'
    have hc : pyIsSpace c = false := head_fails_of_dropWhile_self h1'
    have hurl : url = u.reverse ++ [c] := by
      have h3 := congrArg List.reverse hr
      rw [List.reverse_reverse] at h3
      simpa using h3
    rw [pyRStrip, List.reverse_append, hr, List.cons_append, List.dropWhile_cons,
      if_neg (by simp [hc])]
    rw [hurl]
    simp

theorem pyStrip_of_both {X : PyStr} (h1 : pyLStrip X = X) (h2 : pyRStrip X = X) :
    pyStrip X = X := by
  rw [pyStrip, h1, h2]

theorem parseLoop_doc (title summary : PyStr) (rest : List PyStr)
    (ht0 : title ≠ [])
    (hthead : ∀ c t', title = c :: t' → c ≠ '#' ∧ c ≠ ' ')
    (htl : pyLStrip title = title) (htr : pyRStrip title = title)
    (hs0 : summary ≠ [])
    (hsl : pyLStrip summary = summary) (hsr : pyRStrip summary = summary) :
    Workflow.parseLoop ((str "# " ++ title) :: (str "> " ++ summary) :: rest) [] [] =
      (title, summary) := by
  have hdrop : ('#' :: ' ' :: title).dropWhile (fun c => c == '#' || c == ' ') = title := by
    rw [List.dropWhile_cons, if_pos (by decide), List.dropWhile_cons, if_pos (by decide)]
    rcases ht : title with _ | ⟨c, t'⟩
    · rfl
    · obtain ⟨hc1, hc2⟩ := hthead c t' ht
      rw [List.dropWhile_cons, if_neg (by simp [hc1, hc2])]
  have hpre1 : (str "# ").isPrefixOf (str "# " ++ title) = true := by
    rw [List.isPrefixOf_iff_prefix]
    exact ⟨title, rfl⟩
  have hpre2 : (str "> ").isPrefixOf (str "> " ++ summary) = true := by
    rw [List.isPrefixOf_iff_prefix]
    exact ⟨summary, rfl⟩
  have hlstrip2 : pyLStrip (str "> " ++ summary) = str "> " ++ summary := by
    rw [pyLStrip]
    show ('>' :: ' ' :: summary).dropWhile pyIsSpace = '>' :: ' ' :: summary
    rw [List.dropWhile_cons, if_neg (by decide)]
  have hstep1 : Workflow.parseLoop ((str "# " ++ title) :: (str "> " ++ summary) :: rest)
      [] [] = Workflow.parseLoop ((str "> " ++ summary) :: rest) title [] := by
    rw [Workflow.parseLoop]
    rw [if_pos (by rw [hpre1]; rfl)]
    show Workflow.parseLoop _ (pyStrip (('#' :: ' ' :: title).dropWhile
      (fun c => c == '#' || c == ' '))) [] = _
    rw [hdrop, pyStrip_of_both htl htr]
  rw [hstep1, Workflow.parseLoop]
  rw [if_neg (by simp [ht0])]
  have hs' : (if ([] : PyStr).isEmpty && (str "> ").isPrefixOf (pyLStrip (str "> " ++ summary))
      then pyStrip ((pyLStrip (str "> " ++ summary)).drop 2)
      else ([] : PyStr)) = summary := by
    rw [hlstrip2, if_pos (by rw [hpre2]; rfl)]
    show pyStrip (('>' :: ' ' :: summary).drop 2) = summary
    exact pyStrip_of_both hsl hsr
  rw [hs']
  rw [if_pos (by simp [ht0, hs0])]

theorem pyStrip_sandwich (a m b sp u : PyStr) (ha0 : a ≠ []) (hal : pyLStrip a = a)
    (hu0 : u ≠ []) (hur : pyRStrip u = u) :
    pyStrip (a ++ m ++ b ++ sp ++ u) = a ++ m ++ b ++ sp ++ u := by
  have h1 : pyLStrip (a ++ (m ++ b ++ sp ++ u)) = a ++ (m ++ b ++ sp ++ u) :=
    pyLStrip_append_left a _ ha0 hal
  have h2 : pyRStrip (a ++ m ++ b ++ sp ++ u) = a ++ m ++ b ++ sp ++ u :=
    pyRStrip_append_right (a ++ m ++ b ++ sp) u hu0 hur
  have he : a ++ (m ++ b ++ sp ++ u) = a ++ m ++ b ++ sp ++ u := by
    simp [List.append_assoc]
  rw [pyStrip, ← he, h1, he, h2]

/-- The 70-character summary whose 60th character is a space. -/
def c8sum : PyStr := List.replicate 59 'a' ++ ' ' :: List.replicate 10 'b'

/-- Document with an H1 title and the 70-character blockquote summary. -/
def c8md : PyStr := str "# T\n> " ++ c8sum

/-- C8 counterexample: for the 70-character summary whose truncation boundary
falls on a space, the emitted snippet is the first 59 characters plus the
ellipsis — the code right-strips `summary[:60]` before appending the marker —
not the claim's "summary truncated to 60 characters plus an ellipsis marker". -/
theorem c8_counterexample :
    Workflow.compose_social_message c8md (str "https://e.gg")
        [str "#Crypto", str "#Web3", str "#AI"] =
      str "T — " ++ List.replicate 59 'a' ++ str "… https://e.gg" ++
        '\n' :: str "#Crypto #Web3 #AI" ∧
    str "T — " ++ List.replicate 59 'a' ++ str "… https://e.gg" ++
        '\n' :: str "#Crypto #Web3 #AI" ≠
      str "T — " ++ (c8sum.take 60 ++ str "…") ++ str " https://e.gg" ++
        '\n' :: str "#Crypto #Web3 #AI" := by
  exact ⟨by decide, by decide⟩

/-- C8 (amended): for a document starting with `# Title` followed by a
blockquote summary, and a well-formed URL, the output is
`Title — snippet URL`, a newline, and the three sampled hashtags separated by
spaces (distinct, drawn from the static pool); the snippet is the summary
itself when it has at most 60 characters, and otherwise the first 60
characters of the summary with trailing whitespace stripped, followed by the
ellipsis marker. -/
theorem c8_composer_amended (title summary url rest : PyStr) (sample : List PyStr)
    (ht0 : title ≠ [])
    (hthead : ∀ c t', title = c :: t' → c ≠ '#' ∧ c ≠ ' ')
    (htl : pyLStrip title = title) (htr : pyRStrip title = title)
    (htn : '\n' ∉ title)
    (hs0 : summary ≠ [])
    (hsl : pyLStrip summary = summary) (hsr : pyRStrip summary = summary)
    (hsn : '\n' ∉ summary)
    (hu0 : url ≠ []) (hur : pyRStrip url = url)
    (hlen : sample.length = 3) (hnd : sample.Nodup)
    (hmem : ∀ x ∈ sample, x ∈ Workflow.HASHTAGS) :
    (summary.length ≤ 60 →
      Workflow.compose_social_message
          (str "# " ++ title ++ '\n' :: (str "> " ++ summary ++ '\n' :: rest)) url sample =
        title ++ str " — " ++ summary ++ str " " ++ url ++ '\n' :: joinSpace sample) ∧
    (60 < summary.length →
      Workflow.compose_social_message
          (str "# " ++ title ++ '\n' :: (str "> " ++ summary ++ '\n' :: rest)) url sample =
        title ++ str " — " ++ (pyRStrip (summary.take 60) ++ str "…") ++ str " " ++ url ++
          '\n' :: joinSpace sample) ∧
    (∃ t1 t2 t3, sample = [t1, t2, t3] ∧
      joinSpace sample = t1 ++ ' ' :: (t2 ++ ' ' :: t3) ∧
      t1 ≠ t2 ∧ t1 ≠ t3 ∧ t2 ≠ t3 ∧
      t1 ∈ Workflow.HASHTAGS ∧ t2 ∈ Workflow.HASHTAGS ∧ t3 ∈ Workflow.HASHTAGS) := by
  have hnl1 : '\n' ∉ str "# " ++ title := by
    intro h
    rcases List.mem_append.mp h with h | h
    · exact absurd h (by decide)
    · exact htn h
  have hnl2 : '\n' ∉ str "> " ++ summary := by
    intro h
    rcases List.mem_append.mp h with h | h
    · exact absurd h (by decide)
    · exact hsn h
  have hsplit : splitLines (str "# " ++ title ++ '\n' :: (str "> " ++ summary ++ '\n' :: rest)) =
      (str "# " ++ title) :: (str "> " ++ summary) :: splitLines rest := by
    rw [splitLines_append _ _ hnl1, splitLines_append _ _ hnl2]
  have hparse := parseLoop_doc title summary (splitLines rest) ht0 hthead htl htr hs0 hsl hsr
  have htE : title.isEmpty = false := by
    rcases title with _ | ⟨c, t⟩
    · exact absurd rfl ht0
    · rfl
  have hsE : summary.isEmpty = false := by
    rcases summary with _ | ⟨c, t⟩
    · exact absurd rfl hs0
    · rfl
  refine ⟨?_, ?_, ?_⟩
  · intro hle
    have hsnip : ¬(60 < summary.length) := by omega
    simp only [Workflow.compose_social_message, hsplit, hparse, htE, hsE,
      Bool.false_eq_true, if_false, List.take_of_length_le hle, hsr, hsnip,
      List.append_nil]
    rw [pyStrip_sandwich title (str " — ") summary (str " ") url ht0 htl hu0 hur]
  · intro hgt
    simp only [Workflow.compose_social_message, hsplit, hparse, htE, hsE,
      Bool.false_eq_true, if_false, hgt, if_true]
    rw [pyStrip_sandwich title (str " — ") (pyRStrip (summary.take 60) ++ str "…")
      (str " ") url ht0 htl hu0 hur]
  · obtain ⟨t1, t2, t3, hsam⟩ := List.length_eq_three.mp hlen
    subst hsam
    simp only [List.nodup_cons, List.mem_cons, List.mem_singleton,
      List.not_mem_nil, or_false, not_or] at hnd
    refine ⟨t1, t2, t3, rfl, rfl, hnd.1.1, hnd.1.2, hnd.2.1, ?_, ?_, ?_⟩
    · exact hmem t1 (by simp)
    · exact hmem t2 (by simp)
    · exact hmem t3 (by simp)

theorem c8_composer_amended_witness :
    Workflow.compose_social_message
        (str "# " ++ str "T" ++ '\n' :: (str "> " ++ str "short summary" ++ '\n' :: str ""))
        (str "https://e.gg") [str "#Crypto", str "#Web3", str "#AI"] =
      str "T" ++ str " — " ++ str "short summary" ++ str " " ++ str "https://e.gg" ++
        '\n' :: joinSpace [str "#Crypto", str "#Web3", str "#AI"] := by
  have h := c8_composer_amended (str "T") (str "short summary") (str "https://e.gg")
    (str "") [str "#Crypto", str "#Web3", str "#AI"]
    (by decide)
    (by
      intro c t' h
      injection h with h1 h2
      subst h1
      exact ⟨by decide, by decide⟩)
    (by decide) (by decide) (by decide) (by decide) (by decide) (by decide)
    (by decide) (by decide) (by decide) (by decide) (by decide)
    (by intro x hx; fin_cases hx <;> decide)
  exact h.1 (by decide)

/-! ## Dispatcher: `src/shellcaster.py` -/

namespace Shellcaster

/-- Keys of `PLATFORM_MAP`, in definition order. -/
def PLATFORMS : List PyStr := [str "facebook", str "linkedin", str "x", str "blogger"]

/-- The per-platform required-credential-name lists from
`platform_credentials_ok`; unknown platforms require nothing. -/
def required_creds (p : PyStr) : List PyStr :=
  if p = str "facebook" then [str "FACEBOOK_PAGE_ID", str "FACEBOOK_ACCESS_TOKEN"]
  else if p = str "linkedin" then [str "LINKEDIN_ACCESS_TOKEN", str "LINKEDIN_AUTHOR_URN"]
  else if p = str "x" then
    [str "X_CONSUMER_KEY", str "X_CONSUMER_SECRET", str "X_ACCESS_TOKEN",
     str "X_ACCESS_TOKEN_SECRET"]
  else if p = str "blogger" then [str "BLOGGER_ACCESS_TOKEN", str "BLOGGER_BLOG_ID"]
  else []

/-- Whether `PLATFORM_MAP.get(platform)` finds a post function. -/
def supported (p : PyStr) : Bool := PLATFORMS.contains p

/-- A single credential value fails the check when it is absent, empty, or
contains the placeholder marker `your_` anywhere. -/
def credValueBad (v : Option PyStr) : Bool :=
  !(pyTruthy v) || pyContains (v.getD []) (str "your_")

/-- Loop body of `platform_credentials_ok`: walks the required names in order,
printing `key: value` for each one reached (plaintext, `None` when absent),
and stops at the first absent/empty/placeholder value. Returns the verdict and
the standard-output lines. -/
def cred_check_loop (env : EnvMap) : List PyStr → Bool × List PyStr
  | [] => (true, [])
  | k :: ks =>
    let v := lookupEnv env k
    let line := k ++ str ": " ++ pyShowOpt v
    if credValueBad v then (false, [line])
    else
      let r := cred_check_loop env ks
      (r.1, line :: r.2)

/-- Embedding of `platform_credentials_ok` with its standard output. -/
def platform_credentials_ok (env : EnvMap) (p : PyStr) : Bool × List PyStr :=
  cred_check_loop env (required_creds p)

/-- ANSI color constants from `utils/color.py`. -/
def RED : PyStr := str "\x1b[91m"

def GREEN : PyStr := str "\x1b[92m"

def YELLOW : PyStr := str "\x1b[93m"

def RESET : PyStr := str "\x1b[0m"

/-- Embedding of `print_colored`. -/
def print_colored (text color : PyStr) : PyStr := color ++ text ++ RESET

/-- Result of one adapter `post` call as seen by the dispatcher: a returned
`(success, message)` pair, or a raised exception. -/
inductive PostRes where
  | ret (ok : Bool) (msg : PyStr)
  | exc (msg : PyStr)
deriving DecidableEq

/-- Dispatcher-recorded outcome for one requested platform. -/
inductive Outcome where
  | unsupported
  | skipped
  | posted (ok : Bool) (msg : PyStr)
  | caught (msg : PyStr)
deriving DecidableEq

/-- Dispatcher-visible world: the process environment (read by the credential
check, possibly mutated by adapters) plus opaque adapter-internal state. -/
structure World (σ : Type) where
  env : EnvMap
  inner : σ

/-- An oracle giving each adapter's behavior: platform name and content in,
result (return or raise) and updated world out. -/
def Oracle (σ : Type) := PyStr → PyStr → World σ → PostRes × World σ

/-- One iteration of the dispatcher loop body of `main` for one platform:
unsupported platforms warn; platforms with failing credentials are skipped with
a warning; otherwise the adapter is invoked inside a catch-all. Returns the
outcome, the standard-output lines, and the updated world. -/
def dispatchStep {σ : Type} (oracle : Oracle σ) (content p : PyStr) (w : World σ) :
    Outcome × List PyStr × World σ :=
  if !(supported p) then
    (.unsupported, [print_colored (str "Unsupported platform: " ++ p) YELLOW], w)
  else
    let ck := platform_credentials_ok w.env p
    if !ck.1 then
      (.skipped,
       ck.2 ++ [print_colored (str "Skipping " ++ p ++ str ": credentials not set.") YELLOW], w)
    else
      match oracle p content w with
      | (.ret ok msg, w') =>
        (.posted ok msg,
         ck.2 ++ [print_colored (str "[" ++ pyCapitalize p ++ str "] " ++ msg)
           (if ok then GREEN else RED)], w')
      | (.exc e, w') =>
        (.caught e,
         ck.2 ++ [print_colored (str "[" ++ pyCapitalize p ++ str "] Failed: " ++ e) RED], w')

/-- Embedding of the platform loop of `main`: every requested platform is
processed in list order; each produces one recorded outcome; output lines
accumulate; the world is threaded through adapter calls. -/
def runLoop {σ : Type} (oracle : Oracle σ) (content : PyStr) :
    List PyStr → World σ → List (PyStr × Outcome) × List PyStr × World σ
  | [], w => ([], [], w)
  | p :: ps, w =>
    let s := dispatchStep oracle content p w
    let r := runLoop oracle content ps s.2.2
    ((p, s.1) :: r.1, s.2.1 ++ r.2.1, r.2.2)

/-- A full dispatcher run as observed on standard output: importing the
platform modules first constructs the LinkedIn OAuth helper (printing the
stored tokens), then the platform loop runs. -/
def mainRun {σ : Type} (oracle : Oracle σ) (content : PyStr) (ps : List PyStr)
    (w : World σ) : List (PyStr × Outcome) × List PyStr :=
  let imp := (LinkedIn.load_token w.env).2
  let r := runLoop oracle content ps w
  (r.1, imp ++ r.2.1)

/-- World reached after the dispatcher has processed a list of platforms. -/
def afterLoop {σ : Type} (oracle : Oracle σ) (content : PyStr) (ps : List PyStr)
    (w : World σ) : World σ :=
  (runLoop oracle content ps w).2.2

theorem runLoop_append {σ : Type} (oracle : Oracle σ) (content : PyStr)
    (xs ys : List PyStr) (w : World σ) :
    runLoop oracle content (xs ++ ys) w =
      ((runLoop oracle content xs w).1 ++
         (runLoop oracle content ys (afterLoop oracle content xs w)).1,
       (runLoop oracle content xs w).2.1 ++
         (runLoop oracle content ys (afterLoop oracle content xs w)).2.1,
       (runLoop oracle content ys (afterLoop oracle content xs w)).2.2) := by
  induction xs generalizing w with
  | nil => simp [runLoop, afterLoop]
  | cons p xs ih =>
    simp only [List.cons_append, runLoop, afterLoop, List.append_eq] at *
    rw [ih]
    simp [afterLoop]

theorem runLoop_map_fst {σ : Type} (oracle : Oracle σ) (content : PyStr)
    (ps : List PyStr) (w : World σ) :
    ((runLoop oracle content ps w).1).map Prod.fst = ps := by
  induction ps generalizing w with
  | nil => simp [runLoop]
  | cons p ps ih => simp [runLoop, ih]

theorem runLoop_length {σ : Type} (oracle : Oracle σ) (content : PyStr)
    (ps : List PyStr) (w : World σ) :
    (runLoop oracle content ps w).1.length = ps.length := by
  have h := runLoop_map_fst oracle content ps w
  have := congrArg List.length h
  simpa using this

theorem runLoop_get {σ : Type} (oracle : Oracle σ) (content : PyStr) :
    ∀ (ps : List PyStr) (w : World σ) (i : Nat) (h : i < ps.length),
    (runLoop oracle content ps w).1.get ⟨i, by rw [runLoop_length]; exact h⟩ =
      (ps.get ⟨i, h⟩,
       (dispatchStep oracle content (ps.get ⟨i, h⟩)
          (afterLoop oracle content (ps.take i) w)).1) := by
  intro ps
  induction ps with
  | nil => intro w i h; simp at h
  | cons p ps ih =>
    intro w i h
    match i with
    | 0 => simp [runLoop, afterLoop, List.get]
    | Nat.succ j =>
      have hj : j < ps.length := Nat.lt_of_succ_lt_succ h
      have := ih (dispatchStep oracle content p w).2.2 j hj
      simpa [runLoop, afterLoop, List.get] using this

theorem runLoop_out_mem {σ : Type} (oracle : Oracle σ) (content : PyStr) :
    ∀ (ps : List PyStr) (w : World σ) (i : Nat) (h : i < ps.length) (x : PyStr),
    x ∈ (dispatchStep oracle content (ps.get ⟨i, h⟩)
           (afterLoop oracle content (ps.take i) w)).2.1 →
    x ∈ (runLoop oracle content ps w).2.1 := by
  intro ps
  induction ps with
  | nil => intro w i h; simp at h
  | cons p ps ih =>
    intro w i h x hx
    match i with
    | 0 =>
      simp only [List.take_zero, afterLoop, runLoop, List.get] at hx ⊢
      exact List.mem_append_left _ hx
    | Nat.succ j =>
      have hj : j < ps.length := Nat.lt_of_succ_lt_succ h
      simp only [afterLoop, runLoop, List.take, List.get] at hx ⊢
      refine List.mem_append_right _ ?_
      exact ih (dispatchStep oracle content p w).2.2 j hj x hx

end Shellcaster

/-- C3: every requested platform is processed in list order and yields exactly
one recorded outcome — the outcome of running its own step from the honestly
evolved world — so no earlier platform's skip, failure, or raised exception
prevents a later platform from being attempted; and a supported platform whose
required credentials fail the check is skipped with a warning line, not an
error. -/
theorem c3_dispatcher_isolation {σ : Type} (oracle : Shellcaster.Oracle σ)
    (content : PyStr) (ps : List PyStr) (w : Shellcaster.World σ) (i : Nat)
    (h : i < ps.length) :
    ((Shellcaster.runLoop oracle content ps w).1).map Prod.fst = ps ∧
    (Shellcaster.runLoop oracle content ps w).1.get
        ⟨i, by rw [Shellcaster.runLoop_length]; exact h⟩ =
      (ps.get ⟨i, h⟩,
       (Shellcaster.dispatchStep oracle content (ps.get ⟨i, h⟩)
          (Shellcaster.afterLoop oracle content (ps.take i) w)).1) ∧
    (Shellcaster.supported (ps.get ⟨i, h⟩) = true →
     (Shellcaster.platform_credentials_ok
        (Shellcaster.afterLoop oracle content (ps.take i) w).env (ps.get ⟨i, h⟩)).1 = false →
     (Shellcaster.dispatchStep oracle content (ps.get ⟨i, h⟩)
        (Shellcaster.afterLoop oracle content (ps.take i) w)).1 = .skipped ∧
     Shellcaster.print_colored
         (str "Skipping " ++ ps.get ⟨i, h⟩ ++ str ": credentials not set.")
         Shellcaster.YELLOW ∈ (Shellcaster.runLoop oracle content ps w).2.1) := by
  refine ⟨Shellcaster.runLoop_map_fst oracle content ps w,
          Shellcaster.runLoop_get oracle content ps w i h, fun hs hc => ?_⟩
  have hstep : (Shellcaster.dispatchStep oracle content (ps.get ⟨i, h⟩)
      (Shellcaster.afterLoop oracle content (ps.take i) w)) =
      (.skipped,
       (Shellcaster.platform_credentials_ok
          (Shellcaster.afterLoop oracle content (ps.take i) w).env (ps.get ⟨i, h⟩)).2 ++
         [Shellcaster.print_colored
            (str "Skipping " ++ ps.get ⟨i, h⟩ ++ str ": credentials not set.")
            Shellcaster.YELLOW],
       Shellcaster.afterLoop oracle content (ps.take i) w) := by
    simp only [List.get_eq_getElem] at hs hc
    simp [Shellcaster.dispatchStep, hs, hc]
  refine ⟨by rw [hstep], ?_⟩
  refine Shellcaster.runLoop_out_mem oracle content ps w i h _ ?_
  rw [hstep]
  simp

/-- Oracle whose adapters always raise, used to witness isolation. -/
def cOracle : Shellcaster.Oracle Unit := fun _ _ w => (.exc (str "boom"), w)

/-- Concrete dispatcher world with LinkedIn credentials set and Facebook
credentials absent. -/
def cWorld : Shellcaster.World Unit :=
  ⟨[(str "LINKEDIN_ACCESS_TOKEN", str "tokL"), (str "LINKEDIN_AUTHOR_URN", str "urnA")], ()⟩

theorem c3_dispatcher_isolation_witness :
    ((Shellcaster.runLoop cOracle (str "hi") [str "linkedin", str "facebook"] cWorld).1).map
        Prod.fst = [str "linkedin", str "facebook"] ∧
    (Shellcaster.dispatchStep cOracle (str "hi")
       ([str "linkedin", str "facebook"].get ⟨1, by decide⟩)
       (Shellcaster.afterLoop cOracle (str "hi")
         ([str "linkedin", str "facebook"].take 1) cWorld)).1 = .skipped ∧
    Shellcaster.print_colored
        (str "Skipping " ++ [str "linkedin", str "facebook"].get ⟨1, by decide⟩ ++
          str ": credentials not set.") Shellcaster.YELLOW ∈
      (Shellcaster.runLoop cOracle (str "hi") [str "linkedin", str "facebook"] cWorld).2.1 := by
  have h := c3_dispatcher_isolation cOracle (str "hi") [str "linkedin", str "facebook"]
    cWorld 1 (by decide)
  have hsk := h.2.2 (by decide) (by decide)
  exact ⟨h.1, hsk.1, hsk.2⟩

theorem credValueBad_eq_false_iff (v : Option PyStr) :
    Shellcaster.credValueBad v = false ↔
      ∃ s, v = some s ∧ s ≠ [] ∧ pyContains s (str "your_") = false := by
  cases v with
  | none => simp [Shellcaster.credValueBad, pyTruthy]
  | some s =>
    simp only [Shellcaster.credValueBad, pyTruthy, Option.getD_some, Bool.not_not,
      Bool.or_eq_false_iff, Option.some.injEq]
    constructor
    · rintro ⟨h1, h2⟩
      exact ⟨s, rfl, by simpa [List.isEmpty_iff] using h1, h2⟩
    · rintro ⟨t, rfl, h1, h2⟩
      exact ⟨by simpa [List.isEmpty_iff] using h1, h2⟩

theorem cred_check_loop_fst_iff (env : EnvMap) (ks : List PyStr) :
    (Shellcaster.cred_check_loop env ks).1 = true ↔
      ∀ k ∈ ks, Shellcaster.credValueBad (lookupEnv env k) = false := by
  induction ks with
  | nil => simp [Shellcaster.cred_check_loop]
  | cons k ks ih =>
    by_cases hb : Shellcaster.credValueBad (lookupEnv env k) = true
    · simp [Shellcaster.cred_check_loop, hb]
    · simp only [Bool.not_eq_true] at hb
      simp [Shellcaster.cred_check_loop, hb, ih]

/-- C10: the dispatcher treats a credential value as placeholder exactly when
it is absent, empty, or contains `your_` anywhere; consequently a supported
platform with a required credential whose genuine value contains `your_` is
skipped with a warning instead of being attempted. -/
theorem c10_placeholder_classification :
    (∀ (env : EnvMap) (p : PyStr),
      (Shellcaster.platform_credentials_ok env p).1 = true ↔
        ∀ k ∈ Shellcaster.required_creds p,
          ∃ v, lookupEnv env k = some v ∧ v ≠ [] ∧ pyContains v (str "your_") = false) ∧
    (∀ (σ : Type) (oracle : Shellcaster.Oracle σ) (content : PyStr)
       (w : Shellcaster.World σ) (p k v : PyStr),
      k ∈ Shellcaster.required_creds p → lookupEnv w.env k = some v →
      pyContains v (str "your_") = true → Shellcaster.supported p = true →
      (Shellcaster.dispatchStep oracle content p w).1 = .skipped ∧
      Shellcaster.print_colored (str "Skipping " ++ p ++ str ": credentials not set.")
          Shellcaster.YELLOW ∈ (Shellcaster.dispatchStep oracle content p w).2.1) := by
  constructor
  · intro env p
    rw [Shellcaster.platform_credentials_ok, cred_check_loop_fst_iff]
    simp only [credValueBad_eq_false_iff]
  · intro σ oracle content w p k v hk hl hc hs
    have hbad : Shellcaster.credValueBad (lookupEnv w.env k) = true := by
      rw [hl]
      simp [Shellcaster.credValueBad, hc]
    have hfalse : (Shellcaster.platform_credentials_ok w.env p).1 = false := by
      cases hq : (Shellcaster.platform_credentials_ok w.env p).1 with
      | false => rfl
      | true =>
        rw [Shellcaster.platform_credentials_ok, cred_check_loop_fst_iff] at hq
        rw [hq k hk] at hbad
        exact absurd hbad (by simp)
    constructor
    · simp [Shellcaster.dispatchStep, hs, hfalse]
    · simp [Shellcaster.dispatchStep, hs, hfalse]

theorem c10_placeholder_classification_witness :
    (str "FACEBOOK_ACCESS_TOKEN") ∈ Shellcaster.required_creds (str "facebook") ∧
    (Shellcaster.dispatchStep cOracle (str "hi") (str "facebook")
       ⟨[(str "FACEBOOK_PAGE_ID", str "123"),
         (str "FACEBOOK_ACCESS_TOKEN", str "abc_your_def")], ()⟩).1 = .skipped := by
  refine ⟨by decide, ?_⟩
  have h := c10_placeholder_classification.2 Unit cOracle (str "hi")
    ⟨[(str "FACEBOOK_PAGE_ID", str "123"),
      (str "FACEBOOK_ACCESS_TOKEN", str "abc_your_def")], ()⟩
    (str "facebook") (str "FACEBOOK_ACCESS_TOKEN") (str "abc_your_def")
    (by decide) (by decide) (by decide) (by decide)
  exact h.1

theorem cred_check_loop_out_of_ok (env : EnvMap) (ks : List PyStr)
    (h : ∀ k ∈ ks, Shellcaster.credValueBad (lookupEnv env k) = false) :
    (Shellcaster.cred_check_loop env ks).2 =
      ks.map (fun k => k ++ str ": " ++ pyShowOpt (lookupEnv env k)) := by
  induction ks with
  | nil => simp [Shellcaster.cred_check_loop]
  | cons k ks ih =>
    have hk := h k (by simp)
    have hrest := ih (fun k' hk' => h k' (by simp [hk']))
    simp [Shellcaster.cred_check_loop, hk, hrest]

theorem cred_check_loop_out_split (env : EnvMap) (ks1 : List PyStr) (k : PyStr)
    (ks2 : List PyStr)
    (h : ∀ k' ∈ ks1, Shellcaster.credValueBad (lookupEnv env k') = false) :
    (Shellcaster.cred_check_loop env (ks1 ++ k :: ks2)).2 =
      (ks1.map fun k' => k' ++ str ": " ++ pyShowOpt (lookupEnv env k')) ++
        (k ++ str ": " ++ pyShowOpt (lookupEnv env k)) ::
          (if Shellcaster.credValueBad (lookupEnv env k) then []
           else (Shellcaster.cred_check_loop env ks2).2) := by
  induction ks1 with
  | nil =>
    by_cases hb : Shellcaster.credValueBad (lookupEnv env k) = true
    · simp [Shellcaster.cred_check_loop, hb]
    · simp only [Bool.not_eq_true] at hb
      simp [Shellcaster.cred_check_loop, hb]
  | cons a ks1 ih =>
    have ha := h a (by simp)
    have hrest := ih (fun k' hk' => h k' (by simp [hk']))
    simp [Shellcaster.cred_check_loop, ha, hrest]

/-- C9 counterexample: two dispatcher runs over environments that differ only
in the value of the secret `FACEBOOK_ACCESS_TOKEN` — with the earlier required
credential `FACEBOOK_PAGE_ID` absent — produce identical standard output, and
the secret's value is never printed, refuting both halves of the claim. -/
theorem c9_counterexample :
    lookupEnv [(str "FACEBOOK_ACCESS_TOKEN", str "secretA")] (str "FACEBOOK_ACCESS_TOKEN") ≠
      lookupEnv [(str "FACEBOOK_ACCESS_TOKEN", str "secretB")] (str "FACEBOOK_ACCESS_TOKEN") ∧
    (Shellcaster.mainRun cOracle (str "hi") [str "facebook"]
        ⟨[(str "FACEBOOK_ACCESS_TOKEN", str "secretA")], ()⟩).2 =
      (Shellcaster.mainRun cOracle (str "hi") [str "facebook"]
        ⟨[(str "FACEBOOK_ACCESS_TOKEN", str "secretB")], ()⟩).2 := by
  exact ⟨by decide, by decide⟩

/-- C9 (amended): during the credential-presence check each required credential
up to and including the first failing one is printed with its plaintext value
(all of them when the check passes); two runs differing only in a reached
secret's value print different check output; and the professional-network
adapter prints the stored access token in plaintext at import time. -/
theorem c9_secrets_on_stdout_amended :
    (∀ (env : EnvMap) (p : PyStr),
      (Shellcaster.platform_credentials_ok env p).1 = true →
      (Shellcaster.platform_credentials_ok env p).2 =
        (Shellcaster.required_creds p).map
          (fun k => k ++ str ": " ++ pyShowOpt (lookupEnv env k))) ∧
    (∀ (env : EnvMap) (p k : PyStr) (ks1 ks2 : List PyStr) (v1 v2 : PyStr),
      Shellcaster.required_creds p = ks1 ++ k :: ks2 →
      k ∉ ks1 →
      (∀ k' ∈ ks1, Shellcaster.credValueBad (lookupEnv env k') = false) →
      v1 ≠ v2 →
      (Shellcaster.platform_credentials_ok (updateEnv env k v1) p).2 ≠
        (Shellcaster.platform_credentials_ok (updateEnv env k v2) p).2) ∧
    (∀ (env : EnvMap) (a : PyStr) (σ : Type) (oracle : Shellcaster.Oracle σ)
       (content : PyStr) (ps : List PyStr) (inner : σ),
      lookupEnv env (str "LINKEDIN_ACCESS_TOKEN") = some a →
      (str "access_token: " ++ a) ∈ (Shellcaster.mainRun oracle content ps ⟨env, inner⟩).2) := by
  refine ⟨?_, ?_, ?_⟩
  · intro env p hok
    rw [Shellcaster.platform_credentials_ok] at hok ⊢
    rw [cred_check_loop_fst_iff] at hok
    exact cred_check_loop_out_of_ok env _ hok
  · intro env p k ks1 ks2 v1 v2 hreq hnot hgood hne heq
    have g1 : ∀ k' ∈ ks1, Shellcaster.credValueBad (lookupEnv (updateEnv env k v1) k') = false := by
      intro k' hk'
      rw [lookupEnv_updateEnv_other env k k' v1 (fun hkk => hnot (hkk ▸ hk'))]
      exact hgood k' hk'
    have g2 : ∀ k' ∈ ks1, Shellcaster.credValueBad (lookupEnv (updateEnv env k v2) k') = false := by
      intro k' hk'
      rw [lookupEnv_updateEnv_other env k k' v2 (fun hkk => hnot (hkk ▸ hk'))]
      exact hgood k' hk'
    rw [Shellcaster.platform_credentials_ok, hreq, cred_check_loop_out_split _ _ _ _ g1,
        Shellcaster.platform_credentials_ok, hreq, cred_check_loop_out_split _ _ _ _ g2] at heq
    have hmapeq :
        (ks1.map fun k' => k' ++ str ": " ++ pyShowOpt (lookupEnv (updateEnv env k v1) k')) =
        (ks1.map fun k' => k' ++ str ": " ++ pyShowOpt (lookupEnv (updateEnv env k v2) k')) := by
      apply List.map_congr_left
      intro k' hk'
      rw [lookupEnv_updateEnv_other env k k' v1 (fun hkk => hnot (hkk ▸ hk')),
          lookupEnv_updateEnv_other env k k' v2 (fun hkk => hnot (hkk ▸ hk'))]
    rw [hmapeq] at heq
    have hc := List.append_cancel_left heq
    have hline := (List.cons_eq_cons.mp hc).1
    rw [lookupEnv_updateEnv_self, lookupEnv_updateEnv_self] at hline
    simp only [pyShowOpt] at hline
    exact hne (List.append_cancel_left hline)
  · intro env a σ oracle content ps inner hl
    apply List.mem_append_left
    rw [LinkedIn.load_token]
    simp only [hl, pyShowOpt]
    cases htr : pyTruthy (some a) <;> simp

theorem c9_secrets_on_stdout_amended_witness :
    (Shellcaster.platform_credentials_ok
        (updateEnv [(str "FACEBOOK_PAGE_ID", str "123")]
          (str "FACEBOOK_ACCESS_TOKEN") (str "sA")) (str "facebook")).2 ≠
      (Shellcaster.platform_credentials_ok
        (updateEnv [(str "FACEBOOK_PAGE_ID", str "123")]
          (str "FACEBOOK_ACCESS_TOKEN") (str "sB")) (str "facebook")).2 ∧
    (str "access_token: " ++ str "tokL") ∈
      (Shellcaster.mainRun cOracle (str "hi") [] cWorld).2 := by
  constructor
  · exact c9_secrets_on_stdout_amended.2.1 [(str "FACEBOOK_PAGE_ID", str "123")]
      (str "facebook") (str "FACEBOOK_ACCESS_TOKEN") [str "FACEBOOK_PAGE_ID"] []
      (str "sA") (str "sB") (by decide) (by decide) (by decide) (by decide)
  · exact c9_secrets_on_stdout_amended.2.2 cWorld.env (str "tokL") Unit cOracle
      (str "hi") [] () (by decide)
